import Mathlib

/-!
Verification of the scitools easyviz movie encoder (lib/scitools/easyviz/movie.py).

This file gives a shallow embedding of the `MovieEncoder` class and the
`movie` function into Lean 4, and proves (or refutes) a fixed list of
behavioural claims about it.

Modelling conventions:
- Python strings are Lean `String`s; where lexicographic reasoning is needed
  we work on the underlying `List Char`.
- Python numbers relevant to the claims (`fps`, quantization scales, sizes)
  are modelled as `ℚ` resp. `Int`; machine floats are modelled as rationals
  (exact for every literal appearing in the source).
- The filesystem and the set of installed programs are an explicit
  environment record `Env` (an oracle); `os.system` is an oracle
  `runOk : String → Bool` giving the success of a given command line.
- Raised exceptions are an explicit `Except PyErr` result; `print`
  statements, file writes and file removals are accumulated in an `Eff`
  record, so that a statement of the form "X happens before any write"
  is expressible (an error result carries the effects produced so far).
-/

namespace Movie

/-- Test for a decimal digit character. -/
def isDigitCh (c : Char) : Bool := decide ('0' ≤ c) && decide (c ≤ '9')

/-- The decimal digit character of d (for d ≤ 9; total with a junk default). -/
def dChar : Nat → Char
  | 0 => '0' | 1 => '1' | 2 => '2' | 3 => '3' | 4 => '4'
  | 5 => '5' | 6 => '6' | 7 => '7' | 8 => '8' | 9 => '9'
  | _ => '0'

/-- Fuel-driven digit expansion (structural recursion, so that concrete
values reduce definitionally). -/
def decDigitsAux : Nat → Nat → List Char
  | 0, _ => []
  | fuel + 1, n =>
    if n < 10 then [dChar n] else decDigitsAux fuel (n / 10) ++ [dChar (n % 10)]

/-- Decimal digit characters of n, most significant first (Python str(n) for
n : Nat); n + 1 units of fuel always suffice. -/
def decDigits (n : Nat) : List Char := decDigitsAux (n + 1) n

theorem decDigitsAux_irrel : ∀ (f1 : Nat) (n f2 : Nat), n < f1 → n < f2 →
    decDigitsAux f1 n = decDigitsAux f2 n := by
  intro f1
  induction f1 with
  | zero => intro n f2 h1 _; omega
  | succ f1 ih =>
    intro n f2 h1 h2
    cases f2 with
    | zero => omega
    | succ f2 =>
      simp only [decDigitsAux]
      by_cases hn : n < 10
      · simp [hn]
      · have hd : n / 10 < n := Nat.div_lt_self (by omega) (by omega)
        rw [if_neg hn, if_neg hn, ih (n / 10) f2 (by omega) (by omega)]

/-- The defining recurrence of decDigits. -/
theorem decDigits_eq (n : Nat) :
    decDigits n = if n < 10 then [dChar n] else decDigits (n / 10) ++ [dChar (n % 10)] := by
  show decDigitsAux (n + 1) n = _
  simp only [decDigitsAux]
  by_cases hn : n < 10
  · simp [hn]
  · have hd : n / 10 < n := Nat.div_lt_self (by omega) (by omega)
    rw [if_neg hn, if_neg hn,
      decDigitsAux_irrel n (n / 10) (n / 10 + 1) (by omega) (by omega)]
    rfl

/-- Python percent-formatting %0wd: decimal digits of n left-padded with zeros to width w. -/
def fmtPad (w n : Nat) : List Char :=
  List.replicate (w - (decDigits n).length) '0' ++ decDigits n

/-- String version of fmtPad. -/
def fmt0 (w n : Nat) : String := String.mk (fmtPad w n)

/-- Zero-padded width-w decimal numeral of i, most significant digit first.
For i < 10 ^ w this is exactly the w-character zero-padded numeral. -/
def padNum : Nat → Nat → List Char
  | 0, _ => []
  | w + 1, i => dChar (i / 10 ^ w) :: padNum w (i % 10 ^ w)

/-- Numeric value of a string of decimal digit characters (Python int()). -/
def digitsVal (ds : List Char) : Nat :=
  ds.foldl (fun acc c => acc * 10 + (c.toNat - 48)) 0

/-- Lexicographic comparison of character lists by code point, the order
Python uses to compare strings. -/
def lexCmp : List Char → List Char → Ordering
  | [], [] => .eq
  | [], _ :: _ => .lt
  | _ :: _, [] => .gt
  | a :: as, b :: bs =>
      if a < b then .lt else if b < a then .gt else lexCmp as bs

/-- Boolean less-or-equal on character lists. -/
def lexLe (a b : List Char) : Bool :=
  match lexCmp a b with
  | .gt => false
  | _ => true

/-- Boolean less-or-equal on strings (Python string comparison). -/
def strLe (a b : String) : Bool := lexLe a.data b.data

/-- Python list.sort() on a list of strings: a stable sort by the string
order (modelled by insertion sort, which is stable and agrees with any
stable sort on a fixed total preorder). -/
def pySort (l : List String) : List String :=
  List.insertionSort (fun a b => strLe a b = true) l

theorem lexCmp_eq_iff : ∀ a b : List Char, lexCmp a b = .eq ↔ a = b := by
  intro a
  induction a with
  | nil => intro b; cases b <;> simp [lexCmp]
  | cons x xs ih =>
    intro b
    cases b with
    | nil => simp [lexCmp]
    | cons y ys =>
      simp only [lexCmp]
      by_cases hxy : x < y
      · simp only [if_pos hxy]
        constructor
        · intro h; exact absurd h (by decide)
        · intro h
          injection h with h1 _
          exact absurd (h1 ▸ hxy) (lt_irrefl y)
      · by_cases hyx : y < x
        · simp only [if_neg hxy, if_pos hyx]
          constructor
          · intro h; exact absurd h (by decide)
          · intro h
            injection h with h1 _
            exact absurd (h1 ▸ hyx) (lt_irrefl y)
        · have hxe : x = y := le_antisymm (not_lt.mp hyx) (not_lt.mp hxy)
          simp [hxy, hyx, hxe, ih ys]

theorem lexCmp_swap : ∀ a b : List Char, (lexCmp a b).swap = lexCmp b a := by
  intro a
  induction a with
  | nil => intro b; cases b <;> simp [lexCmp, Ordering.swap]
  | cons x xs ih =>
    intro b
    cases b with
    | nil => simp [lexCmp, Ordering.swap]
    | cons y ys =>
      simp only [lexCmp]
      by_cases hxy : x < y
      · have : ¬ y < x := lt_asymm hxy
        simp [hxy, this, Ordering.swap]
      · by_cases hyx : y < x
        · simp [hxy, hyx, Ordering.swap]
        · simp [hxy, hyx, ih ys]

theorem lexCmp_cons_same (c : Char) (a b : List Char) :
    lexCmp (c :: a) (c :: b) = lexCmp a b := by
  simp [lexCmp, lt_irrefl]

theorem lexCmp_append_left : ∀ (p a b : List Char),
    lexCmp (p ++ a) (p ++ b) = lexCmp a b := by
  intro p
  induction p with
  | nil => intro a b; rfl
  | cons c cs ih => intro a b; simpa [lexCmp_cons_same] using ih a b

theorem lexLe_trans : ∀ a b c : List Char,
    lexLe a b = true → lexLe b c = true → lexLe a c = true := by
  intro a
  induction a with
  | nil =>
    intro b c _ _
    cases c <;> simp [lexLe, lexCmp]
  | cons x xs ih =>
    intro b c hab hbc
    cases b with
    | nil => simp [lexLe, lexCmp] at hab
    | cons y ys =>
      cases c with
      | nil => simp [lexLe, lexCmp] at hbc
      | cons z zs =>
        simp only [lexLe, lexCmp] at hab hbc ⊢
        by_cases hxy : x < y
        · -- x < y ≤ z hence x < z
          by_cases hyz : y < z
          · simp [lt_trans hxy hyz]
          · by_cases hzy : z < y
            · simp [hyz, hzy] at hbc
            · have : y = z := le_antisymm (not_lt.mp hzy) (not_lt.mp hyz)
              simp [this ▸ hxy]
        · by_cases hyx : y < x
          · simp [hxy, hyx] at hab
          · have hxy' : x = y := le_antisymm (not_lt.mp hyx) (not_lt.mp hxy)
            subst hxy'
            by_cases hxz : x < z
            · simp [hxz]
            · by_cases hzx : z < x
              · simp [hxz, hzx] at hbc
              · simp only [hxz, hzx, if_neg, if_false] at hab hbc ⊢
                simp only [if_neg hxy] at hab
                exact ih ys zs (by simpa [lexLe] using hab) (by simpa [lexLe] using hbc)

theorem lexLe_total (a b : List Char) : lexLe a b = true ∨ lexLe b a = true := by
  by_cases h : lexCmp a b = .gt
  · right
    have := lexCmp_swap a b
    rw [h] at this
    simp [Ordering.swap] at this
    simp [lexLe, ← this]
  · left
    cases hc : lexCmp a b <;> simp [lexLe, hc] <;> exact absurd hc h

theorem lexLe_antisymm (a b : List Char) :
    lexLe a b = true → lexLe b a = true → a = b := by
  intro hab hba
  cases hc : lexCmp a b with
  | eq => exact (lexCmp_eq_iff a b).mp hc
  | lt =>
    have := lexCmp_swap a b
    rw [hc] at this
    simp [Ordering.swap] at this
    simp [lexLe, ← this] at hba
  | gt => simp [lexLe, hc] at hab

theorem strLe_trans (a b c : String) :
    strLe a b = true → strLe b c = true → strLe a c = true :=
  lexLe_trans a.data b.data c.data

theorem strLe_total (a b : String) : (strLe a b || strLe b a) = true := by
  rcases lexLe_total a.data b.data with h | h <;> simp [strLe, h]

theorem strLe_antisymm (a b : String) :
    strLe a b = true → strLe b a = true → a = b := by
  intro h1 h2
  have h := lexLe_antisymm a.data b.data h1 h2
  cases a
  cases b
  exact congrArg String.mk h

instance : IsAntisymm String (fun a b => strLe a b = true) := ⟨strLe_antisymm⟩

instance : IsTrans String (fun a b => strLe a b = true) := ⟨strLe_trans⟩

instance : IsTotal String (fun a b => strLe a b = true) :=
  ⟨fun a b => by
    have h := strLe_total a b
    rcases Bool.or_eq_true_iff.mp h with h1 | h1
    · exact Or.inl h1
    · exact Or.inr h1⟩

theorem pySort_perm (l : List String) : (pySort l).Perm l :=
  List.perm_insertionSort (fun a b => strLe a b = true) l

theorem pySort_sorted (l : List String) :
    List.Sorted (fun a b => strLe a b = true) (pySort l) :=
  List.sorted_insertionSort (fun a b => strLe a b = true) l

/-! Glob matching (Python glob.glob / fnmatch on a single path component).
A pattern is tokenized into literals, stars, single-char wildcards and
character classes, then matched against a name. -/

/-- Parse the body of a glob character class (the text before the closing
bracket) into (lo, hi) ranges; a single char c is the range (c, c). -/
def classBody : List Char → List (Char × Char)
  | [] => []
  | a :: '-' :: b :: rest => (a, b) :: classBody rest
  | a :: rest => (a, a) :: classBody rest

/-- Parse a glob character class, after the opening bracket and an optional
negation mark: the ranges of the class and the rest of the pattern after the
closing bracket. Returns none when the class is unterminated (glob then
treats the opening bracket as a literal). -/
def parseClass (l : List Char) : Option (List (Char × Char) × List Char) :=
  if ']' ∈ l then
    some (classBody (l.take (l.indexOf ']')), l.drop (l.indexOf ']' + 1))
  else none

theorem parseClass_length_lt (l : List Char) (it : List (Char × Char))
    (rest : List Char) (h : parseClass l = some (it, rest)) :
    rest.length < l.length := by
  unfold parseClass at h
  split at h
  case isTrue hm =>
    have hlt : l.indexOf ']' < l.length := List.indexOf_lt_length.mpr hm
    simp only [Option.some.injEq, Prod.mk.injEq] at h
    have := h.2
    subst this
    simp [List.length_drop]
    omega
  case isFalse => exact absurd h (by simp)

/-- Glob pattern token. -/
inductive GlobTok
  | lit (c : Char)
  | star
  | anyc
  | cls (neg : Bool) (items : List (Char × Char))
deriving DecidableEq

/-- Fuel-driven glob tokenizer (structural recursion; the pattern length is
always enough fuel, since every step consumes at least one character). -/
def globToksAux : Nat → List Char → List GlobTok
  | 0, _ => []
  | fuel + 1, l =>
    match l with
    | [] => []
    | '*' :: ps => .star :: globToksAux fuel ps
    | '?' :: ps => .anyc :: globToksAux fuel ps
    | '[' :: ps =>
      let neg := ps.head? == some '!'
      let body := if neg then ps.tail else ps
      (match parseClass body with
       | some (items, rest) => .cls neg items :: globToksAux fuel rest
       | none => .lit '[' :: globToksAux fuel ps)
    | c :: ps => .lit c :: globToksAux fuel ps

/-- Tokenize a glob pattern. -/
def globToks (l : List Char) : List GlobTok := globToksAux l.length l

/-- Does a character fall in one of the ranges of a class? -/
def inClass (items : List (Char × Char)) (c : Char) : Bool :=
  items.any (fun p => decide (p.1 ≤ c) && decide (c ≤ p.2))

/-- Fuel-driven matcher of a tokenized glob pattern against a name
(structural recursion; tokens plus name length is always enough fuel). -/
def tokMatchAux : Nat → List GlobTok → List Char → Bool
  | 0, _, _ => false
  | fuel + 1, ts, s =>
    match ts, s with
    | [], [] => true
    | [], _ :: _ => false
    | .star :: ps, [] => tokMatchAux fuel ps []
    | .star :: ps, c :: s => tokMatchAux fuel ps (c :: s) || tokMatchAux fuel (.star :: ps) s
    | .anyc :: ps, _ :: s => tokMatchAux fuel ps s
    | .anyc :: _, [] => false
    | .cls neg items :: ps, c :: s => (xor neg (inClass items c)) && tokMatchAux fuel ps s
    | .cls _ _ :: _, [] => false
    | .lit a :: ps, c :: s => (a == c) && tokMatchAux fuel ps s
    | .lit _ :: _, [] => false

/-- Match a tokenized glob pattern against a name. -/
def tokMatch (ts : List GlobTok) (s : List Char) : Bool :=
  tokMatchAux (ts.length + s.length + 1) ts s

/-- Python fnmatch of a glob pattern against a name (flat, single component). -/
def globMatch (pat s : List Char) : Bool := tokMatch (globToks pat) s

/-- Python glob.glob over a flat directory listing: the files of the listing
matching the pattern, in listing order (glob does not sort). -/
def globList (listing : List String) (pat : String) : List String :=
  listing.filter (fun f => globMatch pat.data f.data)

/-! Model of the regular expression (.*)%(\d+)d(.*\..*) used by the builders
to detect a printf-style sequential file pattern (re.search, greedy groups):
the match, when it exists, splits the string at the last percent sign that is
followed by a nonempty digit run, then the letter d, then a remainder
containing a dot; group 2 is the digit run, groups 1 and 3 the two sides. -/

/-- Try to match %(\d+)d(.*\..*) at the head of the list: returns the value
of the digit run and the remainder after the letter d. -/
def seqTail (cs : List Char) : Option (Nat × List Char) :=
  match cs with
  | '%' :: rest =>
    let ds := rest.takeWhile isDigitCh
    if ds.isEmpty then none
    else
      match rest.drop ds.length with
      | 'd' :: ext => if ext.contains '.' then some (digitsVal ds, ext) else none
      | _ => none
  | _ => none

/-- Scan all split positions left to right, keeping the last position where
seqTail matches (the greedy leading (.*) group takes the longest prefix; at
the empty remainder seqTail never matches, so the accumulator is returned). -/
def seqScan : List Char → List Char → Option (List Char × Nat × List Char) →
    Option (List Char × Nat × List Char)
  | _, [], acc => acc
  | pre, c :: rs, acc =>
    seqScan (pre ++ [c]) rs
      (match seqTail (c :: rs) with
       | some p => some (pre, p.1, p.2)
       | Option.none => acc)

/-- Result of re.search of (.*)%(\d+)d(.*\..*) on a string: the three groups
(prefix, digit-run value, suffix), or none when there is no match. -/
def parseSeqPattern (cs : List Char) : Option (List Char × Nat × List Char) :=
  seqScan [] cs none

/-- Python str.split with a single separator character (keeps empty parts). -/
def splitCh (c : Char) : List Char → List (List Char)
  | [] => [[]]
  | a :: rest =>
    if a = c then [] :: splitCh c rest
    else
      match splitCh c rest with
      | h :: t => (a :: h) :: t
      | [] => [[a]]

/-- Check whether a reversed basename remainder contains a stem character
(a char other than a dot) before the directory separator. -/
def hasStem : List Char → Bool
  | [] => false
  | '/' :: _ => false
  | '.' :: rest => hasStem rest
  | _ :: _ => true

/-- Scan a reversed path for the extension split point (helper of splitext).
The accumulator holds the extension characters recovered so far, in original
order. -/
def goExt (scanned : List Char) : List Char → Option (List Char × List Char)
  | [] => none
  | '/' :: _ => none
  | '.' :: rest => if hasStem rest then some ('.' :: scanned, rest) else none
  | c :: rest => goExt (c :: scanned) rest

/-- Python os.path.splitext: split a path into root and extension. The
extension is everything from the last dot of the last component, provided
that component has a nonempty stem of non-dot characters before the dot. -/
def splitext (s : String) : String × String :=
  match goExt [] s.data.reverse with
  | some (ext, revStem) => (String.mk revStem.reverse, String.mk ext)
  | none => (s, "")

/-- Python os.path.split(path)[0] (dirname): everything before the last
slash; empty when there is no slash. -/
def dirnameOf (s : String) : String :=
  match goDir [] s.data.reverse with
  | some d => String.mk d
  | none => ""
where
  goDir (acc : List Char) : List Char → Option (List Char)
  | [] => none
  | '/' :: rest => some rest.reverse
  | c :: rest => goDir (c :: acc) rest

/-! Data model: dynamic Python values, exceptions, the option dictionary of
MovieEncoder (_local_prop plus the derived file_type entry), the execution
environment oracles and the accumulated side effects. -/

/-- Dynamic Python value, for the options that the source manipulates with
isinstance checks (size, aspect, pattern). Floats are modelled as rationals. -/
inductive PyVal
  | none
  | int (n : Int)
  | float (q : ℚ)
  | str (s : String)
  | tup (l : List PyVal)
  | list (l : List PyVal)

/-- The Python exceptions raised by the source. -/
inductive PyErr
  | valueError (msg : String)
  | ioError (msg : String)
  | typeError (msg : String)
  | exception (msg : String)
  | keyError (k : String)
  | indexError
  | nameError (v : String)
deriving DecidableEq

/-- Input file specification: a pattern/filename string or an explicit
list (or tuple) of paths. -/
inductive InputSpec
  | str (s : String)
  | paths (l : List String)
deriving DecidableEq

/-- The _prop dictionary of MovieEncoder, with the defaults of _local_prop
(movie.py lines 9-32); file_type is added by the constructor. -/
structure Props where
  input_files : InputSpec
  output_file : Option String := Option.none
  overwrite_output : Bool := true
  encoder : Option String := Option.none
  vbitrate : Option Int := Option.none
  vbuffer : Option Int := Option.none
  fps : ℚ := 25
  vcodec : Option String := some "mpeg4"
  size : PyVal := PyVal.none
  quiet : Bool := false
  aspect : PyVal := PyVal.none
  preferred_package : String := "ImageMagick"
  qscale : Option Int := Option.none
  qmin : Int := 2
  qmax : Int := 31
  iqscale : Option Int := Option.none
  pqscale : Option Int := Option.none
  bqscale : Option Int := Option.none
  pattern : PyVal := PyVal.str "I"
  gop_size : Option Int := Option.none
  force_conversion : Bool := false
  cleanup : Bool := true
  file_type : String := ""

/-- Execution environment: filesystem and external-process oracles.
Modelled from the spec: findprograms (imported from scitools.misc, not part
of the sources under verification) probes whether a program of the given
name is available on the host search path; it is modelled by the oracle
installed. os.system is modelled by the oracle runOk giving the success of
a command line; os.path.getsize by the oracle filesize. -/
structure Env where
  isfile : String → Bool
  listdir : List String
  installed : String → Bool
  runOk : String → Bool
  filesize : String → Int

/-- Modelled from the spec: findprograms applied to a tuple of program names
(as in _any2any) checks that every one of them is available. -/
def findprogramsAll (env : Env) (names : List String) : Bool :=
  names.all env.installed

/-- Side effects accumulated by a run: console output, files written
(name, content) and files removed, each in order of occurrence. -/
structure Eff where
  printed : List String := []
  written : List (String × String) := []
  removed : List String := []
deriving DecidableEq

/-- The empty effect. -/
def Eff.nil : Eff := {}

/-- Append a printed line. -/
def Eff.print (e : Eff) (s : String) : Eff := { e with printed := e.printed ++ [s] }

/-- Append printed lines. -/
def Eff.prints (e : Eff) (s : List String) : Eff := { e with printed := e.printed ++ s }

/-- Record a file write. -/
def Eff.write (e : Eff) (f c : String) : Eff := { e with written := e.written ++ [(f, c)] }

/-- Record file removals. -/
def Eff.remove (e : Eff) (fs : List String) : Eff := { e with removed := e.removed ++ fs }

/-- Sequence two effects. -/
def Eff.app (e f : Eff) : Eff :=
  { printed := e.printed ++ f.printed
    written := e.written ++ f.written
    removed := e.removed ++ f.removed }

/-! Exact rational arithmetic in kernel-computable form (mkRat-based; the
Mathlib field operations on ℚ do not reduce definitionally, so the embedding
uses these helpers - they agree with the field operations on ℚ). -/

/-- Rational of an integer. -/
def intQ (n : Int) : ℚ := mkRat n 1

/-- Product of two rationals. -/
def qMul (a b : ℚ) : ℚ := mkRat (a.num * b.num) (a.den * b.den)

/-- Sum of two rationals. -/
def qAdd (a b : ℚ) : ℚ := mkRat (a.num * b.den + b.num * a.den) (a.den * b.den)

/-- Negation of a rational. -/
def qNeg (a : ℚ) : ℚ := mkRat (-a.num) a.den

/-- Difference of two rationals. -/
def qSub (a b : ℚ) : ℚ := qAdd a (qNeg b)

/-- Inverse of a rational (zero maps to zero, as in ℚ). -/
def qInv (a : ℚ) : ℚ :=
  if a.num < 0 then mkRat (-(a.den : Int)) a.num.natAbs
  else mkRat (a.den : Int) a.num.natAbs

/-- Quotient of two rationals. -/
def qDiv (a b : ℚ) : ℚ := qMul a (qInv b)

/-- Absolute value of a rational. -/
def qAbs (a : ℚ) : ℚ := if a.num < 0 then mkRat (-a.num) a.den else a

/-! Python value formatting helpers (percent interpolation). -/

/-- Lower-case an ASCII letter. -/
def lowerCh (c : Char) : Char :=
  if decide ('A' ≤ c) && decide (c ≤ 'Z') then Char.ofNat (c.toNat + 32) else c

/-- Python str.lower (ASCII letters, which is all the source compares). -/
def pyLower (s : String) : String := String.mk (s.data.map lowerCh)

/-- Upper-case an ASCII letter. -/
def upperCh (c : Char) : Char :=
  if decide ('a' ≤ c) && decide (c ≤ 'z') then Char.ofNat (c.toNat - 32) else c

/-- Python str.upper (ASCII letters, which is all the source uses). -/
def pyUpper (s : String) : String := String.mk (s.data.map upperCh)

/-- Python int() truncation of a float toward zero (the %d conversion). -/
def pyTrunc (q : ℚ) : Int := q.num / (q.den : Int)

/-- Render a non-integral rational in decimal with up to six fractional
digits, trailing zeros stripped (the values occurring in the source - frame
rates and aspect ratios - are exact under this rendering). -/
def fmtQ (q : ℚ) : String :=
  if q.den = 1 then toString q.num
  else
    let neg := decide (q < 0)
    let a := qAbs q
    let ip : Nat := a.floor.toNat
    let fr : ℚ := qSub a (intQ a.floor)
    let scaled : Nat := (qMul fr (intQ 1000000)).floor.toNat
    let digs := (((fmtPad 6 scaled).reverse).dropWhile (fun c => c = '0')).reverse
    (if neg then "-" else "") ++ toString ip ++ "." ++ String.mk digs

/-- Python str() of a float (models the %s conversion of a float value). -/
def pyFloatStr (q : ℚ) : String :=
  if q.den = 1 then toString q.num ++ ".0" else fmtQ q

/-- Python str() / %s of a dynamic value. Container values render their
elements at depth one (no claim depends on the container rendering). -/
def pyStrAtom : PyVal → String
  | .none => "None"
  | .int n => toString n
  | .float q => pyFloatStr q
  | .str s => s
  | .tup _ => "(...)"
  | .list _ => "[...]"

/-- Python %s of a value (atoms and depth-one containers). -/
def pyStr : PyVal → String
  | .tup l => "(" ++ ", ".intercalate (l.map pyStrAtom) ++ ")"
  | .list l => "[" ++ ", ".intercalate (l.map pyStrAtom) ++ "]"
  | v => pyStrAtom v

/-- Parse an unsigned decimal digit run. -/
def digitsOfChars (cs : List Char) : Option Nat :=
  if cs.isEmpty then Option.none
  else if cs.all isDigitCh then some (digitsVal cs) else Option.none

/-- Python float() of a string: optional sign, digits, optional fractional
part (sufficient for the aspect-ratio strings the source accepts). -/
def parseFloat (s : String) : Option ℚ :=
  let cs := s.data
  let (neg, cs) :=
    match cs with
    | '-' :: rest => (true, rest)
    | '+' :: rest => (false, rest)
    | _ => (false, cs)
  let ip := cs.takeWhile isDigitCh
  let rest := cs.drop ip.length
  let val? : Option ℚ :=
    match rest with
    | [] => (digitsOfChars ip).map (fun n => intQ n)
    | '.' :: fr =>
      if fr.all isDigitCh ∧ ¬(ip.isEmpty ∧ fr.isEmpty) then
        some (qAdd (intQ (digitsVal ip)) (mkRat (digitsVal fr) (10 ^ fr.length)))
      else Option.none
    | _ => Option.none
  val?.map (fun v => if neg then qNeg v else v)

/-- Python str.find of a character: index of first occurrence or -1. -/
def pyFind (s : String) (c : Char) : Int :=
  if c ∈ s.data then (s.data.indexOf c : Int) else -1

/-! Embeddings of the small pure helpers of MovieEncoder. -/

/-- The supported encoders (movie.py lines 33-34, _legal_encoders). -/
def legalEncoders : List String :=
  ["mencoder", "ffmpeg", "mpeg_encode", "ppmtompeg", "mpeg2enc", "convert"]

/-- The supported input file types (movie.py line 35, _legal_file_types). -/
def legalFileTypes : List String :=
  ["png", "gif", "jpg", "ps", "eps", "bmp", "tif", "tga", "pnm"]

/-- The frame rates accepted by mpeg_encode (movie.py line 325). -/
def legalFrameRates : List ℚ :=
  [mkRat 23976 1000, 24, 25, mkRat 2997 100, 30, 50, mkRat 5994 100, 60]

/-- The aspect ratios accepted by mpeg_encode (movie.py lines 334-336). -/
def legalAspectsMpeg : List ℚ :=
  [1, mkRat 6735 10000, mkRat 7031 10000, mkRat 7615 10000, mkRat 8055 10000,
   mkRat 8437 10000, mkRat 8935 10000, mkRat 9157 10000, mkRat 9815 10000,
   mkRat 10255 10000, mkRat 10695 10000, mkRat 10950 10000, mkRat 11575 10000,
   mkRat 12015 10000]

/-- Python membership test of a dynamic value in a tuple of float literals
(int and float compare by numeric value, other types are never equal). -/
def pyValMemQ (v : PyVal) (l : List ℚ) : Bool :=
  match v with
  | .int n => l.contains (intQ n)
  | .float q => l.contains q
  | _ => false

/-- The named size presets of _get_size (movie.py lines 680-683). -/
def legalSizesLookup (s : String) : Option (Int × Int) :=
  if s = "sqcif" then some (128, 96)
  else if s = "qcif" then some (176, 144)
  else if s = "cif" then some (352, 288)
  else if s = "4cif" then some (704, 576)
  else Option.none

/-- MovieEncoder._get_size (movie.py lines 678-692): resolve the size option
to a two-element pair, or None. -/
def getSize (size : PyVal) : PyVal :=
  let size1 : PyVal :=
    match size with
    | .str s =>
      match legalSizesLookup s with
      | some wh => .tup [.int wh.1, .int wh.2]
      | Option.none => .list ((splitCh 'x' s.data).map (fun cs => .str (String.mk cs)))
    | v => v
  match size1 with
  | .tup l => if l.length = 2 then .tup l else .none
  | .list l => if l.length = 2 then .list l else .none
  | _ => .none

/-- View a resolved size as its two components. -/
def sizePair : PyVal → Option (PyVal × PyVal)
  | .tup [a, b] => some (a, b)
  | .list [a, b] => some (a, b)
  | _ => Option.none

/-- MovieEncoder._get_aspect_ratio (movie.py lines 662-676). A string is
split at a colon when one occurs past the first position, else at slashes
whenever str.find is nonzero (including -1, the source tests the raw find
result); the two leading parts are converted to floats and divided, any
failure yielding None. Non-strings pass through. -/
def getAspectRatio (aspect : PyVal) : PyVal :=
  match aspect with
  | .str s =>
    let parts :=
      if pyFind s ':' > 0 then some (splitCh ':' s.data)
      else if pyFind s '/' ≠ 0 then some (splitCh '/' s.data)
      else Option.none
    match parts with
    | some (p0 :: p1 :: _) =>
      match parseFloat (String.mk p0), parseFloat (String.mk p1) with
      | some a, some b => if b.num = 0 then .none else .float (qDiv a b)
      | _, _ => .none
    | _ => .none
  | v => v

/-- Encoder selection of MovieEncoder.__init__ (movie.py lines 45-61): when
no encoder is given, probe the legal encoders in order and take the first
available one; when one is given, validate its name and availability. -/
def determineEncoder (installed : String → Bool) (enc : Option String) :
    Except PyErr String :=
  match enc with
  | Option.none =>
    match legalEncoders.find? installed with
    | some e => .ok e
    | Option.none => .error (.exception "None of the supported encoders are installed")
  | some e =>
    if e ∈ legalEncoders then
      if installed e then .ok e
      else .error (.exception ("The selected encoder (" ++ e ++ ") is not installed"))
    else .error (.valueError ("encoder must be one of the supported encoders, not " ++ e))

/-- The existence-check loop of MovieEncoder.__init__ (movie.py lines 80-84):
for each name a missing-file line is printed, and the flag variable is reset
at the top of every iteration, so its final value reflects only the last
name. Returns the printed lines and the final flag (for a nonempty list). -/
def existsLoop (isfile : String → Bool) (fs : List String) : List String × Bool :=
  fs.foldl
    (fun acc f =>
      if isfile f then (acc.1, false)
      else (acc.1 ++ ["Input file " ++ f ++ " does not exist."], true))
    ([], false)

/-- MovieEncoder.__init__ (movie.py lines 37-95) after kwargs merging: the
argument carries input_files and the caller-supplied options (unknown
keywords are silently dropped by the source loop, so they do not appear in
the model). Returns the validated property record. -/
def initEncoder (env : Env) (p : Props) : Eff × Except PyErr Props :=
  match determineEncoder env.installed p.encoder with
  | .error e => (Eff.nil, .error e)
  | .ok enc =>
    let p := { p with encoder := some enc }
    -- determine the file used for the type check, and the names iterated by
    -- the existence-check loop (for a string, Python iterates its characters)
    let fileAndNames : Except PyErr (String × List String) :=
      match p.input_files with
      | .paths [] => .error .indexError
      | .paths (f0 :: fs) => .ok (f0, f0 :: fs)
      | .str s =>
        if (globList env.listdir s).isEmpty then
          .error (.ioError ("No files of the form " ++ s ++ " exist."))
        else .ok (s, s.data.map (fun c => String.mk [c]))
    match fileAndNames with
    | .error e => (Eff.nil, .error e)
    | .ok (file_, names) =>
      let (msgs, flag) := existsLoop env.isfile names
      let eff := Eff.nil.prints msgs
      if flag then (eff, .error (.ioError "Some input files were not found."))
      else
        let ext := (splitext file_).2
        if ext = "" then
          (eff, .error (.valueError "Unable to determine file type from file name."))
        else
          let file_type := ext.drop 1
          if file_type ∈ legalFileTypes then
            (eff, .ok { p with file_type := file_type })
          else (eff, .error (.typeError ("file type must be supported, not " ++ file_type)))

/-! Embedding of MovieEncoder._any2any (movie.py lines 583-660): batch
conversion of image files via Netpbm tools or ImageMagick convert. -/

/-- The netpbm_converters table (movie.py lines 589-598): for each extension
an (anyformat-to-pnm, pnm-to-anyformat) tool pair. -/
def netpbmConverters (ext : String) : Option (String × String) :=
  if ext = ".png" then some ("pngtopnm", "pnmtopng")
  else if ext = ".gif" then some ("giftopnm", "ppmtogif")
  else if ext = ".jpg" then some ("jpegtopnm", "pnmtojpeg")
  else if ext = ".ps" then some ("pstopnm", "pnmtops")
  else if ext = ".eps" then some ("pstopnm", "pnmtops")
  else if ext = ".bmp" then some ("bmptopnm", "ppmtobmp")
  else if ext = ".tif" then some ("tifftopnm", "pnmtotiff")
  else if ext = ".tga" then some ("tgatopnm", "ppmtotga")
  else if ext = ".pnm" then some ("cat", "")
  else Option.none

/-- Per-call context of the _any2any conversion loop. -/
structure ConvCtx where
  env : Env
  quiet : Bool
  app : String
  anytopnm : String
  pnmtoany : String
  size : Option (PyVal × PyVal)
  basename : String
  ofile_ext : String

/-- The conversion command line _any2any builds for one file (movie.py
lines 621-644). -/
def convCmd (cx : ConvCtx) (file_ new_file : String) : String :=
  if cx.app = cx.anytopnm then
    let options := if cx.quiet && cx.app ≠ "cat" then "-quiet" else ""
    let options := options ++ (if cx.app = "pstopnm" then " -stdout" else "")
    let cmd := cx.app ++ " " ++ options ++ " " ++ file_ ++ " "
    let cmd := cmd ++
      (match cx.size with
       | some wh =>
         if cx.env.installed "pnmscale" then
           "| pnmscale -width " ++ pyStr wh.1 ++ " -height " ++ pyStr wh.2
         else ""
       | Option.none => "")
    let cmd := cmd ++
      (if cx.pnmtoany ≠ "" then
        let o2 := (if cx.quiet then "-quiet" else "") ++
          (if cx.pnmtoany = "pnmtojpeg" then " -quality 100" else "")
        " | " ++ cx.pnmtoany ++ " " ++ o2
      else "")
    cmd ++ " > " ++ new_file
  else
    let options :=
      match cx.size with
      | some wh => "-resize " ++ pyStr wh.1 ++ "x" ++ pyStr wh.2
      | Option.none => ""
    cx.app ++ " " ++ options ++ " " ++ file_ ++ " " ++ new_file

/-- The conversion loop of _any2any (movie.py lines 617-658): the counter
starts at 1 and advances only on success, a failed file prints a diagnostic
and is skipped. Returns the effects and the successfully converted names. -/
def any2anyLoop (cx : ConvCtx) : List String → Nat → Eff × List String
  | [], _ => (Eff.nil, [])
  | file_ :: rest, i =>
    let new_file := cx.basename ++ fmt0 4 i ++ cx.ofile_ext
    let cmd := convCmd cx file_ new_file
    let eff0 := if cx.quiet then Eff.nil else Eff.nil.print cmd
    if cx.env.runOk cmd then
      let eff1 :=
        if cx.quiet then eff0
        else
          let apps := cx.app ++
            (if cx.app ≠ "convert" && cx.pnmtoany ≠ "" then " and " ++ cx.pnmtoany else "")
          eff0.print (file_ ++ " transformed via " ++ apps ++ " to " ++ new_file ++
            " (" ++ toString (cx.env.filesize new_file / 1000) ++ " Kb)")
      let r := any2anyLoop cx rest (i + 1)
      (eff1.app r.1, new_file :: r.2)
    else
      let eff1 := eff0.print ("... " ++ cx.app ++ " failed, jumping to next file...")
      let r := any2anyLoop cx rest i
      (eff1.app r.1, r.2)

/-- MovieEncoder._any2any (movie.py lines 583-660). The files argument is
typed as a list, so the _check_type guard always passes. -/
def any2any (env : Env) (p : Props) (files : List String) (basename : String)
    (size : Option (PyVal × PyVal)) (ofile_ext : String) :
    Eff × Except PyErr (List String) :=
  match files with
  | [] => (Eff.nil, .error .indexError)
  | f0 :: _ =>
    let ifile_ext := (splitext f0).2
    match netpbmConverters ifile_ext with
    | Option.none => (Eff.nil, .error (.keyError ifile_ext))
    | some an =>
      match netpbmConverters ofile_ext with
      | Option.none => (Eff.nil, .error (.keyError ofile_ext))
      | some pn =>
        let anytopnm := an.1
        let pnmtoany := pn.2
        let appSel : Except PyErr String :=
          if findprogramsAll env ["convert", anytopnm, pnmtoany] then
            (if pyLower p.preferred_package = "imagemagick" then .ok "convert"
             else .ok anytopnm)
          else if env.installed "convert" then .ok "convert"
          else if !(findprogramsAll env [anytopnm, pnmtoany]) then
            .error (.exception ("neither convert nor " ++ anytopnm ++ " was found"))
          else .ok anytopnm
        match appSel with
        | .error e => (Eff.nil, .error e)
        | .ok app =>
          let cx : ConvCtx := ⟨env, p.quiet, app, anytopnm, pnmtoany, size, basename, ofile_ext⟩
          let r := any2anyLoop cx files 1
          (r.1, .ok r.2)

/-! Embeddings of the six encoder command builders. Each returns the updated
property record, the composed command line and the registered temporary
files (the _tmp_files attribute; Option.none when the attribute was never
set), or the raised exception. -/

/-- Result of a successful command build. -/
structure BuildOut where
  props : Props
  cmd : String
  tmp : Option (List String)

/-- Rewrite of a printf-style sequential file pattern into a glob pattern
(movie.py lines 140-146 and its copies): the digit-run placeholder becomes
that many copies of the digit class. -/
def rewriteSeq (s : String) : String :=
  match parseSeqPattern s.data with
  | some png =>
    String.mk (png.1 ++ (List.replicate png.2.1 ['[', '0', '-', '9', ']']).join ++ png.2.2)
  | Option.none => s

/-- String-input resolution of _convert, _mencoder and _mpeg_encode
(movie.py lines 139-148): rewrite a sequential pattern when present, then
glob-expand and sort. -/
def resolveStrInput (env : Env) (s : String) : List String :=
  pySort (globList env.listdir (rewriteSeq s))

/-- The invalid-file-specification message (its %s interpolates the
rewritten, globbed value of the files variable). -/
def badSpecMsg (s : String) : String :=
  s ++ " is not a valid file specification or the files does not exist."

/-- The output-file-exists message. -/
def outExistsMsg (f : String) : String :=
  "Output file " ++ f ++ " already exist. Use overwrite_output=True to overwrite the file."

/-- MovieEncoder._convert (movie.py lines 122-166): build the command for
the ImageMagick convert tool. (A zero fps would raise ZeroDivisionError in
Python; the rational model maps it to a zero delay instead - no claim
involves a zero frame rate.) -/
def convertBuild (env : Env) (p : Props) : Eff × Except PyErr BuildOut :=
  let encoder := p.encoder.getD ""
  let cmd := encoder ++ " -delay " ++ toString (pyTrunc (qMul (qDiv 1 p.fps) (intQ 100)))
  let cmd := cmd ++
    (match sizePair (getSize p.size) with
     | some wh => " -scale " ++ pyStr wh.1 ++ "x" ++ pyStr wh.2
     | Option.none => "")
  let files : List String :=
    match p.input_files with
    | .str s => resolveStrInput env s
    | .paths l => l
  if files.isEmpty then
    (Eff.nil, .error (.valueError (badSpecMsg "[]")))
  else
    let cmd := cmd ++ " " ++ " ".intercalate files
    let p := { p with output_file := some (p.output_file.getD "movie.gif") }
    let output_file := p.output_file.getD ""
    if env.isfile output_file && !p.overwrite_output then
      (Eff.nil, .error (.exception (outExistsMsg output_file)))
    else
      (Eff.nil, .ok ⟨p, cmd ++ " " ++ output_file, Option.none⟩)

/-- Python %s rendering of the vcodec option (None renders as None). -/
def vcodecStr (v : Option String) : String :=
  match v with
  | some s => s
  | Option.none => "None"

/-- The string-or-list file state of _ffmpeg and _mpeg2enc (movie.py lines
261-275 resp. 477-491): a sequential pattern of a directly supported type is
kept as a string, anything else becomes a sorted list of matches. -/
def ffmpegFiles (env : Env) (p : Props) : String ⊕ List String :=
  match p.input_files with
  | .str s =>
    match parseSeqPattern s.data with
    | some _ =>
      if !(p.file_type = "jpg" || p.file_type = "png") || p.force_conversion then
        Sum.inr (resolveStrInput env s)
      else Sum.inl s
    | Option.none => Sum.inr (pySort (globList env.listdir s))
  | .paths l => Sum.inr l

/-- MovieEncoder._ffmpeg (movie.py lines 253-314): build the command for the
FFmpeg tool. Note that this builder never checks whether the output file
already exists; it only passes -y when overwriting is allowed. -/
def ffmpegBuild (env : Env) (p : Props) : Eff × Except PyErr BuildOut :=
  let encoder := p.encoder.getD ""
  let conv : Eff × Except PyErr (String × Option (List String)) :=
    match ffmpegFiles env p with
    | Sum.inl s => (Eff.nil, .ok (s, Option.none))
    | Sum.inr l =>
      match any2any env p l "easyviz_tmp_" Option.none ".png" with
      | (eff, .error e) => (eff, .error e)
      | (eff, .ok newFiles) => (eff, .ok ("easyviz_tmp_" ++ "%04d.png", some newFiles))
  match conv with
  | (eff, .error e) => (eff, .error e)
  | (eff, .ok fl) =>
    let files := fl.1
    let cmd := encoder ++ " -i \"" ++ files ++ "\""
    let cmd := cmd ++ " -b " ++ toString (p.vbitrate.getD 800)
    let cmd := cmd ++ " -r " ++ fmtQ p.fps
    let cmd := cmd ++
      (match sizePair (getSize p.size) with
       | some wh => " -s " ++ pyStr wh.1 ++ "x" ++ pyStr wh.2
       | Option.none => "")
    let cmd := cmd ++
      (match p.vcodec with
       | some v => " -vcodec " ++ v
       | Option.none => "")
    let cmd := cmd ++ (if p.overwrite_output then " -y" else "")
    let cmd := cmd ++
      (match p.aspect with
       | .none => ""
       | a => " -aspect " ++ pyStr a)
    let cmd := cmd ++
      (match p.qscale with
       | some q => " -qscale " ++ toString q
       | Option.none => " -qmin " ++ toString p.qmin ++ " -qmax " ++ toString p.qmax)
    let cmd := cmd ++
      (match p.vbuffer with
       | some v => " -bufsize " ++ toString v
       | Option.none => "")
    let cmd := cmd ++
      (match p.gop_size with
       | some g => " -g " ++ toString g
       | Option.none => "")
    let p := { p with output_file := some (p.output_file.getD "movie.avi") }
    let cmd := cmd ++ " " ++ p.output_file.getD ""
    let cmd := cmd ++ (if p.quiet then " > /dev/null 2>&1" else "")
    (eff, .ok ⟨p, cmd, fl.2⟩)

/-- MovieEncoder._mencoder (movie.py lines 168-251): build the command for
the MEncoder tool. -/
def mencoderBuild (env : Env) (p : Props) : Eff × Except PyErr BuildOut :=
  let encoder := p.encoder.getD ""
  let filesE : Except PyErr (List String) :=
    match p.input_files with
    | .str s =>
      let fs := resolveStrInput env s
      if fs.isEmpty then .error (.valueError (badSpecMsg s)) else .ok fs
    | .paths l => .ok l
  match filesE with
  | .error e => (Eff.nil, .error e)
  | .ok files0 =>
    let convRes : Eff × Except PyErr (List String × String × Option (List String)) :=
      if !(p.file_type = "jpg" || p.file_type = "png") || p.force_conversion then
        match any2any env p files0 "easyviz_tmp_" Option.none ".png" with
        | (eff, .error e) => (eff, .error e)
        | (eff, .ok newFiles) => (eff, .ok (newFiles, "png", some newFiles))
      else (Eff.nil, .ok (files0, p.file_type, Option.none))
    match convRes with
    | (eff, .error e) => (eff, .error e)
    | (eff, .ok fl) =>
      let files := ",".intercalate fl.1
      let file_type := fl.2.1
      let cmd := encoder ++ " \"mf://" ++ files ++ "\" -mf"
      let cmd := cmd ++ " fps=" ++ fmtQ p.fps
      let cmd := cmd ++ ":type=" ++ file_type
      let vbitrate := p.vbitrate.getD 800
      let cmd :=
        if p.vcodec = some "xvid" then
          let c := cmd ++ " -ovc xvid -xvidencopts"
          match p.qscale with
          | some q => c ++ " fixed_quant=" ++ toString q
          | Option.none =>
            c ++ " bitrate=" ++ toString vbitrate ++ ":" ++
            "min_iquant=" ++ toString p.qmin ++ ":max_iquant=" ++ toString p.qmax ++ ":" ++
            "min_pquant=" ++ toString p.qmin ++ ":max_pquant=" ++ toString p.qmax ++ ":" ++
            "min_bquant=" ++ toString p.qmin ++ ":max_bquant=" ++ toString p.qmax
        else
          let c := cmd ++ " -ovc lavc -lavcopts vcodec=" ++ vcodecStr p.vcodec ++ ":mbd=1"
          -- vbitrate has been defaulted to 800, so the None test cannot fire
          let c := c ++ ":vbitrate=" ++ toString vbitrate
          let c :=
            match p.qscale with
            | some q => c ++ ":vqscale=" ++ toString q
            | Option.none => c ++ ":vqmin=" ++ toString p.qmin ++ ":vqmax=" ++ toString p.qmax
          match p.vbuffer with
          | some v => c ++ ":vrc_buf_size=" ++ toString v
          | Option.none => c
      let cmd := cmd ++
        (match p.aspect with
         | .none => ""
         | a => ":aspect=" ++ pyStr a)
      let cmd := cmd ++
        (match sizePair (getSize p.size) with
         | some wh => " -vf scale=" ++ pyStr wh.1 ++ ":" ++ pyStr wh.2
         | Option.none => "")
      let p := { p with output_file := some (p.output_file.getD "movie.avi") }
      let output_file := p.output_file.getD ""
      if env.isfile output_file && !p.overwrite_output then
        (eff, .error (.exception (outExistsMsg output_file)))
      else
        let cmd := cmd ++ " -o " ++ output_file
        let cmd := cmd ++ (if p.quiet then " > /dev/null 2>&1" else "")
        (eff, .ok ⟨p, cmd, fl.2.2⟩)

/-- Python os.path.dirname (os.path.split(path)[0]). -/
def pyDirname (s : String) : String :=
  if '/' ∈ s.data then
    let rev := s.data.reverse
    let headRev := rev.drop (rev.indexOf '/')
    if headRev.all (fun c => c = '/') then String.mk headRev.reverse
    else String.mk ((headRev.dropWhile (fun c => c = '/')).reverse)
  else ""

/-- Test for the dynamic None value. -/
def PyVal.isNone : PyVal → Bool
  | .none => true
  | _ => false

/-- Default qscale resolution of _mpeg_encode (movie.py lines 393-405): an
explicit qscale fills the unset per-frame-type scales; with no qscale the
defaults are I=8, P=10, B=25. -/
def mpegScales (q iq pq bq : Option Int) : Int × Int × Int :=
  match q with
  | some qv => (iq.getD qv, pq.getD qv, bq.getD qv)
  | Option.none => (iq.getD 8, pq.getD 10, bq.getD 25)

/-- The parameter-file text _mpeg_encode writes (movie.py lines 417-441),
with the trailing BIT_RATE/BUFFER_SIZE writes appended (lines 443-449). -/
def mpegParamContent (pat : String) (mpeg_file : String) (gop : Int)
    (input_dir : String) (files : String) (iq pq bq : Int) (fps : ℚ)
    (aspect : String) (extra : String) : String :=
  "\nPATTERN\t         " ++ pat ++
  "\nOUTPUT           " ++ mpeg_file ++
  "\nBASE_FILE_FORMAT PNM" ++
  "\nINPUT_CONVERT    *" ++
  "\nGOP_SIZE         " ++ toString gop ++
  "\n#GOP_SIZE         16" ++
  "\nSLICES_PER_FRAME 1" ++
  "\nINPUT_DIR        " ++ input_dir ++
  "\nINPUT\n" ++ files ++
  "\nEND_INPUT" ++
  "\nPIXEL            FULL" ++
  "\n#PIXEL            HALF" ++
  "\nRANGE            10" ++
  "\nPSEARCH_ALG      LOGARITHMIC" ++
  "\nBSEARCH_ALG      CROSS2" ++
  "\nIQSCALE\t         " ++ toString iq ++
  "\nPQSCALE\t         " ++ toString pq ++
  "\nBQSCALE\t         " ++ toString bq ++
  "\nREFERENCE_FRAME  ORIGINAL" ++
  "\nFRAME_RATE       " ++ toString (pyTrunc fps) ++
  "\nASPECT_RATIO     " ++ aspect ++
  "\nFORCE_ENCODE_LAST_FRAME\n" ++ extra

/-- MovieEncoder._mpeg_encode (movie.py lines 316-461), also installed as
_ppmtompeg (line 464): validate the frame rate and aspect ratio, resolve and
(virtually always) convert the input files, write the parameter file and
compose the command. -/
def mpegEncodeBuild (env : Env) (p : Props) : Eff × Except PyErr BuildOut :=
  let encoder := p.encoder.getD ""
  let basename := "easyviz_tmp_"
  if !(legalFrameRates.contains p.fps) then
    (Eff.nil, .error (.valueError (encoder ++ " only supports a fixed set of frame rates")))
  else
    let aspectE : Except PyErr PyVal :=
      match p.aspect with
      | .none => .ok (.float 1)
      | a =>
        if pyValMemQ a legalAspectsMpeg then .ok a
        else .error (.valueError (encoder ++ " only supports a fixed set of aspect ratios"))
    match aspectE with
    | .error e => (Eff.nil, .error e)
    | .ok aspectV =>
      let eff := Eff.nil.print (pyStr aspectV)
      let files0 : List String :=
        match p.input_files with
        | .str s => resolveStrInput env s
        | .paths l => l
      if files0.isEmpty then
        (eff, .error (.valueError (badSpecMsg "[]")))
      else
        let size := getSize p.size
        let convRes : Eff × Except PyErr (List String × Option (List String)) :=
          if (!size.isNone) || p.file_type ≠ "pnm" || p.force_conversion then
            match any2any env p files0 basename (sizePair size) ".pnm" with
            | (e2, .error e) => (e2, .error e)
            | (e2, .ok newFiles) => (e2, .ok (newFiles, some newFiles))
          else (Eff.nil, .ok (files0, Option.none))
        match convRes with
        | (e2, .error e) => (eff.app e2, .error e)
        | (e2, .ok fl) =>
          let eff := eff.app e2
          let files := "\n".intercalate fl.1
          -- os.path.split(files[0])[0]: files is now a string, so its first
          -- character is taken as the path to split
          match files.data with
          | [] => (eff, .error .indexError)
          | c0 :: _ =>
            let input_dir := pyDirname (String.mk [c0])
            let input_dir := if input_dir = "" then "." else input_dir
            let p := { p with output_file := some (p.output_file.getD "movie.mpeg") }
            let mpeg_file := p.output_file.getD ""
            if env.isfile mpeg_file && !p.overwrite_output then
              (eff, .error (.exception (outExistsMsg mpeg_file)))
            else
              let patternS : String :=
                match p.pattern with
                | .str s => pyUpper s
                | _ => "I"
              let sc := mpegScales p.qscale p.iqscale p.pqscale p.bqscale
              let gop := p.gop_size.getD 15
              let mpeg_encode_file := basename ++ ".mpeg_encode-input"
              let extra :=
                (match p.vbitrate with
                 | some v => "BIT_RATE         " ++ toString (v * 1000)
                 | Option.none => "") ++
                (match p.vbuffer with
                 | some v => "BUFFER_SIZE      " ++ toString (v * 1000)
                 | Option.none => "")
              let content := mpegParamContent patternS mpeg_file gop input_dir files
                sc.1 sc.2.1 sc.2.2 p.fps (pyStr aspectV) extra
              let eff := eff.write mpeg_encode_file content
              let tmp := fl.2.getD [] ++ [mpeg_encode_file]
              let cmd := encoder ++ (if p.quiet then " -realquiet" else "") ++
                " " ++ mpeg_encode_file
              (eff, .ok ⟨p, cmd, some tmp⟩)

/-- MovieEncoder._ppmtompeg is the same method as _mpeg_encode (movie.py
line 464). -/
def ppmtompegBuild (env : Env) (p : Props) : Eff × Except PyErr BuildOut :=
  mpegEncodeBuild env p

/-- The discrete frame-rate codes of mpeg2enc (movie.py lines 548-549),
keyed by the str() rendering of the fps value. -/
def mpeg2encFpsCode (s : String) : Option Int :=
  if s = "23.976" then some 1
  else if s = "24" then some 2
  else if s = "25" then some 3
  else if s = "29.97" then some 4
  else if s = "30" then some 5
  else if s = "50" then some 6
  else if s = "59.94" then some 7
  else if s = "60" then some 8
  else Option.none

/-- MovieEncoder._mpeg2enc (movie.py lines 466-581): build the piped
png2yuv/jpeg2yuv - yuvscaler - mpeg2enc command. When the frame rate is not
one of the supported ones, the source raises a NameError: its error message
references an undefined variable fps_convert (line 553). -/
def mpeg2encBuild (env : Env) (p : Props) : Eff × Except PyErr BuildOut :=
  let encoder := p.encoder.getD ""
  let conv : Eff × Except PyErr (String × String × Option (List String)) :=
    match ffmpegFiles env p with
    | Sum.inl s => (Eff.nil, .ok (s, p.file_type, Option.none))
    | Sum.inr l =>
      match any2any env p l "easyviz_tmp_" Option.none ".png" with
      | (eff, .error e) => (eff, .error e)
      | (eff, .ok newFiles) =>
        (eff, .ok ("easyviz_tmp_" ++ "%04d.png", "png", some newFiles))
  match conv with
  | (eff, .error e) => (eff, .error e)
  | (eff, .ok fl) =>
    let files := fl.1
    let file_type := fl.2.1
    let toolE : Except PyErr String :=
      if file_type = "jpg" && env.installed "jpeg2yuv" then .ok "jpeg2yuv"
      else if env.installed "png2yuv" then .ok "png2yuv"
      else .error (.exception "png2yuv or jpeg2yuv is not installed")
    match toolE with
    | .error e => (eff, .error e)
    | .ok tool =>
      let cmd := tool ++ " -f 25" ++ " -I p" ++ " -j \"" ++ files ++ "\""
      -- the start-image loop formats files % i; a string with no sequential
      -- placeholder raises TypeError on the first iteration
      match parseSeqPattern files.data with
      | Option.none => (eff, .error (.typeError "not all arguments converted during string formatting"))
      | some png =>
        let found := (List.range 9999).find?
          (fun i => env.isfile (String.mk (png.1 ++ fmtPad png.2.1 i ++ png.2.2)))
        let cmd := cmd ++
          (match found with
           | some i => " -b " ++ toString (i : Int)
           | Option.none => "")
        let cmd := cmd ++ (if p.quiet then " -v 0" else "")
        let size := getSize p.size
        let cmd := cmd ++
          (match sizePair size with
           | some wh =>
             if env.installed "yuvscaler" then
               " | yuvscaler -O SIZE_" ++ pyStr wh.1 ++ "x" ++ pyStr wh.2
             else ""
           | Option.none => "")
        let p := { p with output_file := some (p.output_file.getD "movie.mpeg") }
        let output_file := p.output_file.getD ""
        if env.isfile output_file && !p.overwrite_output then
          (eff, .error (.exception (outExistsMsg output_file)))
        else
          let cmd := cmd ++ " | " ++ encoder
          let cmd := cmd ++ (if p.vcodec = some "mpeg2video" then " -f 3" else " -f 0")
          let cmd := cmd ++
            (match p.vbitrate with
             | some v => " -b " ++ toString v
             | Option.none => "")
          let cmd := cmd ++
            (match p.vbuffer with
             | some v => " -V " ++ toString v
             | Option.none => "")
          let cmd := cmd ++
            (match p.qscale with
             | some q => " -q " ++ toString q
             | Option.none => "")
          match mpeg2encFpsCode (fmtQ p.fps) with
          | Option.none => (eff, .error (.nameError "fps_convert"))
          | some code =>
            let cmd := cmd ++ " -F " ++ toString code
            let cmd := cmd ++
              (match p.gop_size with
               | some g => " -g " ++ toString g ++ " -G " ++ toString g
               | Option.none => "")
            let aspect := getAspectRatio p.aspect
            let aspectE : Except PyErr String :=
              match aspect with
              | .none => .ok ""
              | a =>
                if pyValMemQ a [1, 2, 3, 4] then .ok (" -a " ++ pyStr a)
                else
                  let s := pyStr a
                  if s.startsWith "1.0" then .ok " -a 1"
                  else if s.startsWith "1.3" then .ok " -a 2"
                  else if s.startsWith "1.7" then .ok " -a 3"
                  else if s.startsWith "2.21" then .ok " -a 4"
                  else .error (.valueError "aspect must be either 1:1, 4:3, 16:9, or 2.21:1")
            match aspectE with
            | .error e => (eff, .error e)
            | .ok aspectPart =>
              let cmd := cmd ++ aspectPart
              let cmd := cmd ++ " -o " ++ output_file
              let cmd := cmd ++ (if p.quiet then " -v 0" else "")
              (eff, .ok ⟨p, cmd, fl.2.2⟩)

/-- The per-encoder dispatch of encode (movie.py line 106, the exec call). -/
def dispatchBuilder (env : Env) (p : Props) : Eff × Except PyErr BuildOut :=
  match p.encoder.getD "" with
  | "mencoder" => mencoderBuild env p
  | "ffmpeg" => ffmpegBuild env p
  | "mpeg_encode" => mpegEncodeBuild env p
  | "ppmtompeg" => ppmtompegBuild env p
  | "mpeg2enc" => mpeg2encBuild env p
  | "convert" => convertBuild env p
  | e => (Eff.nil, .error (.valueError ("no builder for " ++ e)))

/-- MovieEncoder.encode (movie.py lines 97-120): validate the encoder name,
build the command, run it, report the outcome and clean up the registered
temporary files. A non-zero exit of the external command is only printed;
the cleanup step runs afterwards in either case. -/
def encodeRun (env : Env) (p : Props) : Eff × Except PyErr Props :=
  let ok := match p.encoder with
    | some e => legalEncoders.contains e
    | Option.none => false
  if !ok then
    (Eff.nil, .error (.valueError "encoder must be one of the supported encoders"))
  else
    match dispatchBuilder env p with
    | (eff, .error e) => (eff, .error e)
    | (eff, .ok out) =>
      let eff := if !out.props.quiet then eff.print ("Running: \n\n" ++ out.cmd ++ "\n") else eff
      let failure := !(env.runOk out.cmd)
      let eff :=
        if failure then eff.print "\n\ncould not make movie"
        else if !out.props.quiet then
          eff.print ("\n\nmovie in output file " ++ out.props.output_file.getD "")
        else eff
      let eff :=
        if out.props.cleanup && out.tmp.isSome then eff.remove (out.tmp.getD [])
        else eff
      (eff, .ok out.props)

/-- The movie function (movie.py lines 695-962): construct a MovieEncoder
and encode. -/
def movieRun (env : Env) (p : Props) : Eff × Except PyErr Props :=
  match initEncoder env p with
  | (eff, .error e) => (eff, .error e)
  | (eff, .ok p2) =>
    let r := encodeRun env p2
    (eff.app r.1, r.2)

/-! Helper lemmas. -/

theorem splitCh_not_mem (c : Char) (l : List Char) (h : c ∉ l) :
    splitCh c l = [l] := by
  induction l with
  | nil => rfl
  | cons a rest ih =>
    have hac : a ≠ c := fun he => h (by simp [he])
    have hr : c ∉ rest := fun hm => h (by simp [hm])
    simp only [splitCh, if_neg hac, ih hr]

theorem splitCh_split (c : Char) (w h : List Char) (hw : c ∉ w) (hh : c ∉ h) :
    splitCh c (w ++ c :: h) = [w, h] := by
  induction w with
  | nil => simp [splitCh, splitCh_not_mem c h hh]
  | cons a w' ih =>
    have hac : a ≠ c := fun he => hw (by simp [he])
    have hw' : c ∉ w' := fun hm => hw (by simp [hm])
    simp only [List.cons_append, splitCh, if_neg hac, List.append_eq, ih hw']

theorem find?_eq_some_split {p : String → Bool} :
    ∀ (l : List String) (e : String),
      l.find? p = some e ↔
        ∃ l1 l2, l = l1 ++ e :: l2 ∧ p e = true ∧ ∀ x ∈ l1, p x = false := by
  intro l
  induction l with
  | nil => intro e; simp
  | cons a rest ih =>
    intro e
    by_cases ha : p a
    · simp only [List.find?, ha]
      constructor
      · intro he
        injection he with he
        exact ⟨[], rest, by simp [he], by simp [← he, ha], by simp⟩
      · rintro ⟨l1, l2, hsplit, hpe, hfst⟩
        cases l1 with
        | nil => simp at hsplit; simp [hsplit.1]
        | cons b bs =>
          simp at hsplit
          exact absurd (hsplit.1 ▸ ha) (by simp [hfst b (by simp)])
    · simp only [List.find?, Bool.not_eq_true] at ha ⊢
      rw [ha, ih e]
      constructor
      · rintro ⟨l1, l2, hsplit, hpe, hfst⟩
        refine ⟨a :: l1, l2, by simp [hsplit], hpe, ?_⟩
        intro x hx
        rcases List.mem_cons.mp hx with rfl | hx
        · exact ha
        · exact hfst x hx
      · rintro ⟨l1, l2, hsplit, hpe, hfst⟩
        cases l1 with
        | nil =>
          simp at hsplit
          exact absurd (hsplit.1 ▸ hpe) (by simp [ha])
        | cons b bs =>
          simp at hsplit
          exact ⟨bs, l2, hsplit.2, hpe, fun x hx => hfst x (by simp [hx])⟩

/-! Claim C10: _get_size is total and never raises; it returns a preset pair,
a split pair, a passed-through two-element pair, or None. -/

/-- Claim C10: size parsing (_get_size) is total and never raises: for every
value of the size option it returns either a two-element pair - via the
preset table sqcif=(128,96), qcif=(176,144), cif=(352,288), 4cif=(704,576),
or by splitting a wxh string, or passing a two-element tuple/list through -
or None; every other value (wrong-length sequence, unrecognized string,
number, etc.) is silently treated as unset rather than reported as a
configuration error. -/
theorem C10_get_size_total :
    (∀ v : PyVal, getSize v = .none ∨
       ∃ a b, getSize v = .tup [a, b] ∨ getSize v = .list [a, b]) ∧
    getSize (.str "sqcif") = .tup [.int 128, .int 96] ∧
    getSize (.str "qcif") = .tup [.int 176, .int 144] ∧
    getSize (.str "cif") = .tup [.int 352, .int 288] ∧
    getSize (.str "4cif") = .tup [.int 704, .int 576] ∧
    (∀ a b : PyVal, getSize (.tup [a, b]) = .tup [a, b]) ∧
    (∀ a b : PyVal, getSize (.list [a, b]) = .list [a, b]) ∧
    (∀ w h : List Char, 'x' ∉ w → 'x' ∉ h →
       legalSizesLookup (String.mk (w ++ 'x' :: h)) = Option.none →
       getSize (.str (String.mk (w ++ 'x' :: h))) =
         .list [.str (String.mk w), .str (String.mk h)]) := by
  refine ⟨?_, rfl, rfl, rfl, rfl, fun a b => rfl, fun a b => rfl, ?_⟩
  · intro v
    cases v with
    | none => left; rfl
    | int n => left; rfl
    | float q => left; rfl
    | str s =>
      simp only [getSize]
      cases hp : legalSizesLookup s with
      | some wh => right; exact ⟨.int wh.1, .int wh.2, Or.inl rfl⟩
      | none =>
        set l := (splitCh 'x' s.data).map (fun cs => PyVal.str (String.mk cs)) with hl
        by_cases h2 : l.length = 2
        · rcases List.length_eq_two.mp h2 with ⟨a, b, hab⟩
          right; exact ⟨a, b, Or.inr (by simp [hab])⟩
        · left; simp [h2]
    | tup l =>
      by_cases h2 : l.length = 2
      · rcases List.length_eq_two.mp h2 with ⟨a, b, hab⟩
        right; exact ⟨a, b, Or.inl (by simp [getSize, hab])⟩
      · left; simp [getSize, h2]
    | list l =>
      by_cases h2 : l.length = 2
      · rcases List.length_eq_two.mp h2 with ⟨a, b, hab⟩
        right; exact ⟨a, b, Or.inr (by simp [getSize, hab])⟩
      · left; simp [getSize, h2]
  · intro w h hw hh hpreset
    simp [getSize, hpreset, splitCh_split 'x' w h hw hh]

/-- Witness for C10 at a concrete wxh string. -/
theorem C10_get_size_total_witness :
    getSize (.str "320x240") = .list [.str "320", .str "240"] := by
  have h := C10_get_size_total.2.2.2.2.2.2.2 "320".data "240".data
    (by decide) (by decide) (by decide)
  exact h

/-! Claim C4: encoder selection. -/

/-- Claim C4: when configuration.encoder is unset, the constructor probes
the six supported tool names in the fixed order mencoder, ffmpeg,
mpeg_encode, ppmtompeg, mpeg2enc, convert, selects the first one installed,
and raises a no-encoder-available error if none is installed; when encoder
is explicitly given, construction raises unless the name is one of those six
and the corresponding program is installed. -/
theorem C4_encoder_selection :
    legalEncoders = ["mencoder", "ffmpeg", "mpeg_encode", "ppmtompeg",
      "mpeg2enc", "convert"] ∧
    (∀ (installed : String → Bool) (e : String),
       determineEncoder installed Option.none = .ok e ↔
         ∃ l1 l2, legalEncoders = l1 ++ e :: l2 ∧ installed e = true ∧
           ∀ x ∈ l1, installed x = false) ∧
    (∀ installed : String → Bool, (∀ e ∈ legalEncoders, installed e = false) →
       determineEncoder installed Option.none =
         .error (.exception "None of the supported encoders are installed")) ∧
    (∀ (installed : String → Bool) (e : String), e ∉ legalEncoders →
       determineEncoder installed (some e) =
         .error (.valueError ("encoder must be one of the supported encoders, not " ++ e))) ∧
    (∀ (installed : String → Bool) (e : String), e ∈ legalEncoders →
       installed e = true → determineEncoder installed (some e) = .ok e) ∧
    (∀ (installed : String → Bool) (e : String), e ∈ legalEncoders →
       installed e = false → determineEncoder installed (some e) =
         .error (.exception ("The selected encoder (" ++ e ++ ") is not installed"))) := by
  refine ⟨rfl, ?_, ?_, ?_, ?_, ?_⟩
  · intro installed e
    simp only [determineEncoder]
    cases hf : legalEncoders.find? installed with
    | some e0 =>
      rw [find?_eq_some_split] at hf
      constructor
      · intro he
        injection he with he
        exact he ▸ hf
      · rintro ⟨l1, l2, hsplit, hpe, hfst⟩
        rcases hf with ⟨m1, m2, hsplit', hpe', hfst'⟩
        -- both describe the first element satisfying installed; they agree
        have : e0 = e := by
          rcases List.append_eq_append_iff.mp (hsplit' ▸ hsplit) with ⟨u, hu1, hu2⟩ | ⟨u, hu1, hu2⟩
          · cases u with
            | nil => simp at hu2; exact hu2.1
            | cons x xs =>
              simp at hu2
              exact absurd hpe' (by simp [hfst e0 (by simp [hu1, ← hu2.1])])
          · cases u with
            | nil => simp at hu2; exact hu2.1.symm
            | cons x xs =>
              simp at hu2
              exact absurd hpe (by simp [hfst' e (by simp [hu1, ← hu2.1])])
        simp [this]
    | none =>
      rw [List.find?_eq_none] at hf
      constructor
      · intro h; exact absurd h (by simp)
      · rintro ⟨l1, l2, hsplit, hpe, _⟩
        exact absurd hpe (by simp [hf e (by simp [hsplit])])
  · intro installed hall
    have : legalEncoders.find? installed = Option.none :=
      List.find?_eq_none.mpr (fun x hx => by simp [hall x hx])
    simp [determineEncoder, this]
  · intro installed e he
    simp [determineEncoder, he]
  · intro installed e he hi
    simp [determineEncoder, he, hi]
  · intro installed e he hi
    simp [determineEncoder, he, hi]

/-- Witness for C4: with only ffmpeg installed and no encoder given, ffmpeg
is selected (with mencoder probed first and found missing); with nothing
installed the constructor raises; an unsupported explicit name and a
missing explicit encoder both raise. -/
theorem C4_encoder_selection_witness :
    determineEncoder (fun s => decide (s = "ffmpeg")) Option.none = .ok "ffmpeg" ∧
    determineEncoder (fun _ => false) Option.none =
      .error (.exception "None of the supported encoders are installed") ∧
    determineEncoder (fun _ => true) (some "avconv") =
      .error (.valueError "encoder must be one of the supported encoders, not avconv") ∧
    determineEncoder (fun _ => false) (some "convert") =
      .error (.exception "The selected encoder (convert) is not installed") := by
  refine ⟨?_, ?_, ?_, ?_⟩
  · exact (C4_encoder_selection.2.1 (fun s => decide (s = "ffmpeg")) "ffmpeg").mpr
      ⟨["mencoder"], ["mpeg_encode", "ppmtompeg", "mpeg2enc", "convert"],
        by decide, by decide, by decide⟩
  · exact C4_encoder_selection.2.2.1 (fun _ => false) (by decide)
  · exact C4_encoder_selection.2.2.2.1 (fun _ => true) "avconv" (by decide)
  · exact C4_encoder_selection.2.2.2.2.2 (fun _ => false) "convert" (by decide) rfl

/-! Claim C1: a missing explicit input path makes construction fail. The
code resets the error flag inside the check loop (movie.py line 81), so only
the last path decides whether the IOError is raised: with a missing first
file and an existing last file the constructor prints the diagnostic but
succeeds. -/

/-- Environment for the C1 run: only b.png exists, only convert installed. -/
def c1Env : Env :=
  ⟨fun f => decide (f = "b.png"), [], fun e => decide (e = "convert"),
   fun _ => true, fun _ => 0⟩

/-- Claim C1 (refuted by the code, bug in the source): constructing the
encoding job over the explicit list [a.png, b.png] with a.png missing and
b.png existing prints the missing-file diagnostic, yet the constructor
returns successfully instead of raising the input error, because the
error_encountered flag is re-initialized inside the loop (movie.py line 81)
and therefore reflects only the last path. -/
theorem C1_missing_input_accepted :
    (initEncoder c1Env { input_files := .paths ["a.png", "b.png"] }).1.printed =
      ["Input file a.png does not exist."] ∧
    ∃ p2, (initEncoder c1Env { input_files := .paths ["a.png", "b.png"] }).2 = .ok p2 ∧
      p2.encoder = some "convert" := by
  exact ⟨rfl, ⟨_, rfl, rfl⟩⟩

/-! Claim C2: the six builders fail on an existing output file without
overwrite permission. Refuted for ffmpeg: _ffmpeg (movie.py lines 253-314)
never tests the output path; it merely omits -y. The other five builders do
fail as claimed. -/

/-- Environment for the C2 counterexample: every path exists. -/
def c2Env : Env :=
  ⟨fun _ => true, [], fun _ => true, fun _ => true, fun _ => 0⟩

/-- Configuration for the C2 counterexample: ffmpeg, existing output file,
overwriting forbidden. -/
def c2Props : Props :=
  { input_files := .str "f_%04d.png", encoder := some "ffmpeg",
    file_type := "png", output_file := some "out.avi",
    overwrite_output := false }

/-- Counterexample to claim C2: with the output file existing on disk and
overwrite_output false, the ffmpeg builder still succeeds and returns a
command (which does not even carry -y), rather than failing with the
output-exists error. -/
theorem C2_counterexample_ffmpeg :
    c2Env.isfile "out.avi" = true ∧
    c2Props.overwrite_output = false ∧
    ffmpegBuild c2Env c2Props =
      (Eff.nil, .ok ⟨{ c2Props with output_file := some "out.avi" },
        "ffmpeg -i \"f_%04d.png\" -b 800 -r 25 -vcodec mpeg4 -qmin 2 -qmax 31 out.avi",
        Option.none⟩) := by
  exact ⟨rfl, rfl, rfl⟩

/-- Claim C2 amended: of the six encoders, the five builders _convert,
_mencoder, _mpeg_encode, _ppmtompeg and _mpeg2enc fail with the
output-exists error when the (explicit or defaulted) output file already
exists and overwrite_output is false, before the external tool is invoked;
_ffmpeg performs no such check (see the counterexample) and merely omits -y.
Each conjunct carries the hypotheses that let the builder reach its output
check (valid inputs, no conversion errors beforehand). -/
theorem C2_output_exists_five_builders :
    (∀ (env : Env) (p : Props),
       (match p.input_files with
        | .str s => resolveStrInput env s
        | .paths l => l) ≠ [] →
       env.isfile (p.output_file.getD "movie.gif") = true →
       p.overwrite_output = false →
       (convertBuild env p).2 =
         .error (.exception (outExistsMsg (p.output_file.getD "movie.gif")))) ∧
    (∀ (env : Env) (p : Props) (fs : List String),
       p.input_files = .paths fs →
       p.file_type = "png" → p.force_conversion = false →
       env.isfile (p.output_file.getD "movie.avi") = true →
       p.overwrite_output = false →
       (mencoderBuild env p).2 =
         .error (.exception (outExistsMsg (p.output_file.getD "movie.avi")))) ∧
    (∀ (env : Env) (p : Props) (fs : List String) (c0 : Char) (cr : List Char),
       p.input_files = .paths fs → fs ≠ [] →
       ("\n".intercalate fs).data = c0 :: cr →
       p.size = .none → p.file_type = "pnm" → p.force_conversion = false →
       legalFrameRates.contains p.fps = true → p.aspect = .none →
       env.isfile (p.output_file.getD "movie.mpeg") = true →
       p.overwrite_output = false →
       (mpegEncodeBuild env p).2 =
         .error (.exception (outExistsMsg (p.output_file.getD "movie.mpeg")))) ∧
    (∀ (env : Env) (p : Props) (fs : List String) (c0 : Char) (cr : List Char),
       p.input_files = .paths fs → fs ≠ [] →
       ("\n".intercalate fs).data = c0 :: cr →
       p.size = .none → p.file_type = "pnm" → p.force_conversion = false →
       legalFrameRates.contains p.fps = true → p.aspect = .none →
       env.isfile (p.output_file.getD "movie.mpeg") = true →
       p.overwrite_output = false →
       (ppmtompegBuild env p).2 =
         .error (.exception (outExistsMsg (p.output_file.getD "movie.mpeg")))) ∧
    (∀ (env : Env) (p : Props) (s : String) (png : List Char × Nat × List Char),
       p.input_files = .str s →
       parseSeqPattern s.data = some png →
       p.file_type = "png" → p.force_conversion = false →
       env.installed "png2yuv" = true →
       env.isfile (p.output_file.getD "movie.mpeg") = true →
       p.overwrite_output = false →
       (mpeg2encBuild env p).2 =
         .error (.exception (outExistsMsg (p.output_file.getD "movie.mpeg")))) := by
  refine ⟨?_, ?_, ?_, ?_, ?_⟩
  · intro env p hfiles hex hov
    simp only [convertBuild]
    rw [if_neg (by simpa [List.isEmpty_iff] using hfiles)]
    simp [hex, hov]
  · intro env p fs hin hft hfc hex hov
    simp only [mencoderBuild, hin, hft, hfc]
    simp [hex, hov]
  · intro env p fs c0 cr hin hfs hjoin hsize hft hfc hfps hasp hex hov
    simp only [mpegEncodeBuild, hin, hft, hfc, hfps, hasp, hsize]
    simp only [getSize, PyVal.isNone]
    simp [hex, hov, hjoin, hfs]
  · intro env p fs c0 cr hin hfs hjoin hsize hft hfc hfps hasp hex hov
    simp only [ppmtompegBuild, mpegEncodeBuild, hin, hft, hfc, hfps, hasp, hsize]
    simp only [getSize, PyVal.isNone]
    simp [hex, hov, hjoin, hfs]
  · intro env p s png hin hparse hft hfc hpng hex hov
    simp only [mpeg2encBuild, ffmpegFiles, hin, hft, hfc, hparse, hpng]
    simp [hex, hov, hparse]

/-- Concrete configuration: convert with an existing output. -/
def c2wConvert : Props :=
  { input_files := .paths ["f.png"], encoder := some "convert", file_type := "png", output_file := some "o.gif", overwrite_output := false }

/-- Concrete configuration: mencoder with an existing output. -/
def c2wMencoder : Props :=
  { input_files := .paths ["f.png"], encoder := some "mencoder", file_type := "png", output_file := some "o.avi", overwrite_output := false }

/-- Concrete configuration: mpeg_encode with an existing output. -/
def c2wMpegEncode : Props :=
  { input_files := .paths ["a.pnm"], encoder := some "mpeg_encode", file_type := "pnm", output_file := some "o.mpeg", overwrite_output := false }

/-- Concrete configuration: ppmtompeg with an existing output. -/
def c2wPpmtompeg : Props :=
  { input_files := .paths ["a.pnm"], encoder := some "ppmtompeg", file_type := "pnm", output_file := some "o.mpeg", overwrite_output := false }

/-- Concrete configuration: mpeg2enc with an existing output. -/
def c2wMpeg2enc : Props :=
  { input_files := .str "f_%04d.png", encoder := some "mpeg2enc", file_type := "png", output_file := some "o.mpeg", overwrite_output := false }

/-- Witness for the amended C2: concrete configurations for each of the
five checking builders, each with an existing output file and overwriting
forbidden, all failing with the output-exists error. -/
theorem C2_output_exists_five_builders_witness :
    (convertBuild c2Env c2wConvert).2 = .error (.exception (outExistsMsg "o.gif")) ∧
    (mencoderBuild c2Env c2wMencoder).2 = .error (.exception (outExistsMsg "o.avi")) ∧
    (mpegEncodeBuild c2Env c2wMpegEncode).2 = .error (.exception (outExistsMsg "o.mpeg")) ∧
    (ppmtompegBuild c2Env c2wPpmtompeg).2 = .error (.exception (outExistsMsg "o.mpeg")) ∧
    (mpeg2encBuild c2Env c2wMpeg2enc).2 = .error (.exception (outExistsMsg "o.mpeg")) := by
  refine ⟨?_, ?_, ?_, ?_, ?_⟩
  · exact C2_output_exists_five_builders.1 c2Env c2wConvert (by decide) rfl rfl
  · exact C2_output_exists_five_builders.2.1 c2Env c2wMencoder ["f.png"] rfl rfl rfl rfl rfl
  · exact C2_output_exists_five_builders.2.2.1 c2Env c2wMpegEncode ["a.pnm"] 'a' ".pnm".data
      rfl (by decide) rfl rfl rfl rfl (by decide) rfl rfl rfl
  · exact C2_output_exists_five_builders.2.2.2.1 c2Env c2wPpmtompeg ["a.pnm"] 'a' ".pnm".data
      rfl (by decide) rfl rfl rfl rfl (by decide) rfl rfl rfl
  · exact C2_output_exists_five_builders.2.2.2.2 c2Env c2wMpeg2enc "f_%04d.png"
      ("f_".data, 4, ".png".data) rfl rfl rfl rfl rfl rfl rfl

/-! Claim C3: a non-zero exit of the external encoder command does not
raise; the failure is printed and cleanup still removes every registered
temporary file. -/

/-- Claim C3: for every configuration with cleanup true, when the external
encoder command exits non-zero, encode() does not raise: the failure is only
reported as printed output, and every registered temporary file is still
deleted - cleanup runs on the failure path just as on the success path. -/
theorem C3_failure_printed_cleanup_runs :
    ∀ (env : Env) (p : Props) (eff : Eff) (out : BuildOut),
      out.props.cleanup = true →
      (match p.encoder with
       | some e => legalEncoders.contains e
       | Option.none => false) = true →
      dispatchBuilder env p = (eff, .ok out) →
      env.runOk out.cmd = false →
      ∃ eff2, encodeRun env p = (eff2, .ok out.props) ∧
        "\n\ncould not make movie" ∈ eff2.printed ∧
        ∀ f ∈ out.tmp.getD [], f ∈ eff2.removed := by
  intro env p eff out hclean hlegal hdisp hrun
  simp only [encodeRun, hlegal, Bool.not_true, Bool.false_eq_true, if_false,
    hdisp, hrun, Bool.not_false, if_true, hclean, Bool.true_and]
  cases hs : out.tmp with
  | none =>
    simp only [hs, Option.isSome_none, Bool.false_eq_true, if_false]
    refine ⟨_, rfl, ?_, ?_⟩
    · cases hq : out.props.quiet <;> simp [Eff.print]
    · intro f hf
      simp at hf
  | some l =>
    simp only [hs, Option.isSome_some, if_true]
    refine ⟨_, rfl, ?_, ?_⟩
    · cases hq : out.props.quiet <;> simp [Eff.print, Eff.remove]
    · intro f hf
      simp only [Option.getD_some] at hf
      cases hq : out.props.quiet <;> simp [Eff.print, Eff.remove, hf]

/-- Environment for the C3 witness: the external command fails. -/
def c3Env : Env := ⟨fun _ => false, [], fun _ => true, fun _ => false, fun _ => 0⟩

/-- Configuration for the C3 witness: mpeg_encode over one pnm file. -/
def c3Props : Props :=
  { input_files := .paths ["a.pnm"], encoder := some "mpeg_encode", file_type := "pnm", quiet := true }

/-- The build result of the C3 witness configuration: it registers the
parameter file as a temporary artifact. -/
def c3Out : BuildOut :=
  ⟨{ c3Props with output_file := some "movie.mpeg" },
   "mpeg_encode -realquiet easyviz_tmp_.mpeg_encode-input",
   some ["easyviz_tmp_.mpeg_encode-input"]⟩

/-- Witness for C3: the concrete failing run returns normally, prints the
failure and removes the registered parameter file. -/
theorem C3_failure_printed_cleanup_runs_witness :
    ∃ eff2, encodeRun c3Env c3Props = (eff2, .ok c3Out.props) ∧
      "\n\ncould not make movie" ∈ eff2.printed ∧
      ∀ f ∈ c3Out.tmp.getD [], f ∈ eff2.removed := by
  exact C3_failure_printed_cleanup_runs c3Env c3Props
    (mpegEncodeBuild c3Env c3Props).1 c3Out rfl rfl rfl rfl

/-! Claim C5: unsupported frame rates make _mpeg_encode fail before the
parameter file is written. -/

/-- Claim C5: for the mpeg_encode encoder (and its alias ppmtompeg), for
every fps value not in the set 23.976, 24, 25, 29.97, 30, 50, 59.94, 60,
building the command fails with the unsupported-frame-rate error, with no
effects at all - in particular no parameter file is ever written to disk.
The first conjunct identifies the embedded legal set with those literals. -/
theorem C5_mpeg_encode_fps_guard :
    legalFrameRates = [23.976, 24, 25, 29.97, 30, 50, 59.94, 60] ∧
    ∀ (env : Env) (p : Props), legalFrameRates.contains p.fps = false →
      mpegEncodeBuild env p =
        (Eff.nil, .error (.valueError
          ((p.encoder.getD "") ++ " only supports a fixed set of frame rates"))) ∧
      ppmtompegBuild env p =
        (Eff.nil, .error (.valueError
          ((p.encoder.getD "") ++ " only supports a fixed set of frame rates"))) := by
  constructor
  · simp only [legalFrameRates, List.cons.injEq]
    norm_num [Rat.mkRat_eq_div]
  · intro env p h
    constructor
    · simp only [mpegEncodeBuild, h, Bool.not_false, eq_self_iff_true, if_true]
    · simp only [ppmtompegBuild, mpegEncodeBuild, h, Bool.not_false,
        eq_self_iff_true, if_true]

/-- Witness for C5: fps 10 is rejected by both builder names with no
written files. -/
theorem C5_mpeg_encode_fps_guard_witness :
    mpegEncodeBuild c2Env { input_files := .paths ["a.pnm"], encoder := some "mpeg_encode", file_type := "pnm", fps := 10 } =
      (Eff.nil, .error (.valueError "mpeg_encode only supports a fixed set of frame rates")) ∧
    ppmtompegBuild c2Env { input_files := .paths ["a.pnm"], encoder := some "ppmtompeg", file_type := "pnm", fps := 10 } =
      (Eff.nil, .error (.valueError "ppmtompeg only supports a fixed set of frame rates")) := by
  constructor
  · exact (C5_mpeg_encode_fps_guard.2 c2Env
      { input_files := .paths ["a.pnm"], encoder := some "mpeg_encode", file_type := "pnm", fps := 10 }
      (by decide)).1
  · exact (C5_mpeg_encode_fps_guard.2 c2Env
      { input_files := .paths ["a.pnm"], encoder := some "ppmtompeg", file_type := "pnm", fps := 10 }
      (by decide)).2

/-! Claim C6: default and qscale-driven quantization scales in the
mpeg_encode parameter file. -/

/-- Claim C6: for the mpeg_encode/ppmtompeg encoder, when qscale, iqscale,
pqscale and bqscale are all unset, the written parameter file contains
IQSCALE 8, PQSCALE 10 and BQSCALE 25; when qscale=5 is given with no
per-frame override, the parameter file contains IQSCALE 5, PQSCALE 5 and
BQSCALE 5. Parts (a) and (b) state the scale resolution itself; parts (c)
and (d) show the resolved values are what the builder writes into the
parameter file on disk (over configurations that reach the write). -/
theorem C6_mpeg_encode_scales :
    mpegScales Option.none Option.none Option.none Option.none = (8, 10, 25) ∧
    mpegScales (some 5) Option.none Option.none Option.none = (5, 5, 5) ∧
    (∀ (env : Env) (p : Props) (fs : List String) (c0 : Char) (cr : List Char),
       p.input_files = .paths fs → fs ≠ [] →
       ("\n".intercalate fs).data = c0 :: cr →
       p.size = .none → p.file_type = "pnm" → p.force_conversion = false →
       legalFrameRates.contains p.fps = true → p.aspect = .none →
       env.isfile (p.output_file.getD "movie.mpeg") = false →
       p.qscale = Option.none → p.iqscale = Option.none →
       p.pqscale = Option.none → p.bqscale = Option.none →
       ∃ pat mf gop dir fls asp extra,
         (mpegEncodeBuild env p).1.written =
           [("easyviz_tmp_" ++ ".mpeg_encode-input",
             mpegParamContent pat mf gop dir fls 8 10 25 p.fps asp extra)]) ∧
    (∀ (env : Env) (p : Props) (fs : List String) (c0 : Char) (cr : List Char),
       p.input_files = .paths fs → fs ≠ [] →
       ("\n".intercalate fs).data = c0 :: cr →
       p.size = .none → p.file_type = "pnm" → p.force_conversion = false →
       legalFrameRates.contains p.fps = true → p.aspect = .none →
       env.isfile (p.output_file.getD "movie.mpeg") = false →
       p.qscale = some 5 → p.iqscale = Option.none →
       p.pqscale = Option.none → p.bqscale = Option.none →
       ∃ pat mf gop dir fls asp extra,
         (mpegEncodeBuild env p).1.written =
           [("easyviz_tmp_" ++ ".mpeg_encode-input",
             mpegParamContent pat mf gop dir fls 5 5 5 p.fps asp extra)]) := by
  refine ⟨rfl, rfl, ?_, ?_⟩
  · intro env p fs c0 cr hin hfs hjoin hsize hft hfc hfps hasp hex hq hiq hpq hbq
    simp only [mpegEncodeBuild, hin, hft, hfc, hfps, hasp, hsize, hq, hiq, hpq, hbq,
      mpegScales]
    simp only [getSize, PyVal.isNone]
    simp [hex, hjoin, hfs, Eff.nil, Eff.print, Eff.app, Eff.write]
    exact ⟨_, _, _, _, _, _, _, rfl⟩
  · intro env p fs c0 cr hin hfs hjoin hsize hft hfc hfps hasp hex hq hiq hpq hbq
    simp only [mpegEncodeBuild, hin, hft, hfc, hfps, hasp, hsize, hq, hiq, hpq, hbq,
      mpegScales]
    simp only [getSize, PyVal.isNone]
    simp [hex, hjoin, hfs, Eff.nil, Eff.print, Eff.app, Eff.write]
    exact ⟨_, _, _, _, _, _, _, rfl⟩

/-- Environment for the C6 witness: output file absent, tools installed. -/
def c6Env : Env := ⟨fun _ => false, [], fun _ => true, fun _ => true, fun _ => 0⟩

/-- C6 witness configuration with all scales unset. -/
def c6aProps : Props :=
  { input_files := .paths ["a.pnm"], encoder := some "mpeg_encode", file_type := "pnm" }

/-- C6 witness configuration with qscale 5 and no per-frame override. -/
def c6bProps : Props :=
  { input_files := .paths ["a.pnm"], encoder := some "mpeg_encode", file_type := "pnm", qscale := some 5 }

/-- Witness for C6: at the concrete configurations the builder writes the
parameter file with scales 8/10/25 resp. 5/5/5. -/
theorem C6_mpeg_encode_scales_witness :
    (∃ pat mf gop dir fls asp extra,
       (mpegEncodeBuild c6Env c6aProps).1.written =
         [("easyviz_tmp_" ++ ".mpeg_encode-input",
           mpegParamContent pat mf gop dir fls 8 10 25 25 asp extra)]) ∧
    (∃ pat mf gop dir fls asp extra,
       (mpegEncodeBuild c6Env c6bProps).1.written =
         [("easyviz_tmp_" ++ ".mpeg_encode-input",
           mpegParamContent pat mf gop dir fls 5 5 5 25 asp extra)]) := by
  constructor
  · exact C6_mpeg_encode_scales.2.2.1 c6Env c6aProps ["a.pnm"] 'a' ".pnm".data
      rfl (by decide) rfl rfl rfl rfl (by decide) rfl rfl rfl rfl rfl rfl
  · exact C6_mpeg_encode_scales.2.2.2 c6Env c6bProps ["a.pnm"] 'a' ".pnm".data
      rfl (by decide) rfl rfl rfl rfl (by decide) rfl rfl rfl rfl rfl rfl

/-! Claim C8: _any2any skips failing conversions with a diagnostic and
returns the successfully converted files, sequentially numbered. -/

theorem decDigits_length_le : ∀ (k n : Nat), n < 10 ^ (k + 1) →
    (decDigits n).length ≤ k + 1 := by
  intro k
  induction k with
  | zero =>
    intro n hn
    rw [decDigits_eq]
    simp at hn
    rw [if_pos hn]
    rfl
  | succ k ih =>
    intro n hn
    rw [decDigits_eq]
    by_cases h10 : n < 10
    · rw [if_pos h10]; simp
    · rw [if_neg h10]
      have : n / 10 < 10 ^ (k + 1) := by
        rw [Nat.div_lt_iff_lt_mul (by omega)]
        calc n < 10 ^ (k + 1 + 1) := hn
        _ = 10 ^ (k + 1) * 10 := by ring
      have := ih (n / 10) this
      simp [List.length_append]
      omega

theorem fmtPad_length (w n : Nat) (hn : (decDigits n).length ≤ w) :
    (fmtPad w n).length = w := by
  simp [fmtPad, List.length_append, List.length_replicate]
  omega

/-- Claim C8: in format conversion (_any2any), for every input file list, a
file whose conversion command fails is skipped with a printed diagnostic and
the batch continues (the remaining files are processed exactly as if the
failed file were absent, at the same counter value); the function returns
exactly the successfully converted files, in input order, each named
basename ++ %04d-index ++ extension with consecutive indices from the start
counter (four digits wide for indices up to 9999); under the converter-table
hypotheses the wrapper returns the batch result normally - per-file
failures never raise. -/
theorem C8_any2any_skip_and_numbering :
    (∀ (cx : ConvCtx) (files : List String) (i : Nat),
       ∃ k, k ≤ files.length ∧
         (any2anyLoop cx files i).2 =
           (List.range k).map (fun j => cx.basename ++ fmt0 4 (i + j) ++ cx.ofile_ext)) ∧
    (∀ (cx : ConvCtx) (f : String) (rest : List String) (i : Nat),
       cx.env.runOk (convCmd cx f (cx.basename ++ fmt0 4 i ++ cx.ofile_ext)) = false →
       (any2anyLoop cx (f :: rest) i).2 = (any2anyLoop cx rest i).2 ∧
       ("... " ++ cx.app ++ " failed, jumping to next file...") ∈
         (any2anyLoop cx (f :: rest) i).1.printed) ∧
    (∀ (cx : ConvCtx) (f : String) (rest : List String) (i : Nat),
       cx.env.runOk (convCmd cx f (cx.basename ++ fmt0 4 i ++ cx.ofile_ext)) = true →
       (any2anyLoop cx (f :: rest) i).2 =
         (cx.basename ++ fmt0 4 i ++ cx.ofile_ext) :: (any2anyLoop cx rest (i + 1)).2) ∧
    (∀ (env : Env) (p : Props) (f0 : String) (rest : List String)
       (basename : String) (size : Option (PyVal × PyVal)) (ofile_ext : String)
       (an pn : String × String),
       netpbmConverters (splitext f0).2 = some an →
       netpbmConverters ofile_ext = some pn →
       findprogramsAll env ["convert", an.1, pn.2] = true →
       pyLower p.preferred_package = "imagemagick" →
       any2any env p (f0 :: rest) basename size ofile_ext =
         ((any2anyLoop ⟨env, p.quiet, "convert", an.1, pn.2, size, basename, ofile_ext⟩
             (f0 :: rest) 1).1,
          .ok (any2anyLoop ⟨env, p.quiet, "convert", an.1, pn.2, size, basename, ofile_ext⟩
             (f0 :: rest) 1).2)) ∧
    (∀ n : Nat, n < 10000 → (fmtPad 4 n).length = 4) := by
  refine ⟨?_, ?_, ?_, ?_, ?_⟩
  · intro cx files
    induction files with
    | nil => intro i; exact ⟨0, by simp, by simp [any2anyLoop]⟩
    | cons f rest ih =>
      intro i
      by_cases hrun : cx.env.runOk (convCmd cx f (cx.basename ++ fmt0 4 i ++ cx.ofile_ext))
      · obtain ⟨k, hk, hout⟩ := ih (i + 1)
        have harith : ∀ j : Nat, i + 1 + j = i + (j + 1) := fun j => by omega
        refine ⟨k + 1, by simpa using Nat.succ_le_succ hk, ?_⟩
        simp only [any2anyLoop, hrun, if_true, eq_self_iff_true, hout]
        rw [List.range_succ_eq_map]
        simp [Function.comp, harith]
      · obtain ⟨k, hk, hout⟩ := ih i
        refine ⟨k, by simpa using Nat.le_succ_of_le hk, ?_⟩
        simp only [any2anyLoop, Bool.not_eq_true] at hrun ⊢
        rw [hrun]
        simpa using hout
  · intro cx f rest i hrun
    constructor
    · simp [any2anyLoop, hrun]
    · simp only [any2anyLoop, hrun, Bool.false_eq_true, if_false]
      cases hq : cx.quiet <;> simp [Eff.print, Eff.app, Eff.nil]
  · intro cx f rest i hrun
    simp [any2anyLoop, hrun]
  · intro env p f0 rest basename size ofile_ext an pn hifext hofext hall hpref
    simp only [any2any, hifext, hofext, hall, hpref, if_true, eq_self_iff_true]
  · intro n hn
    exact fmtPad_length 4 n (decDigits_length_le 3 n hn)

/-- Environment for the C8 witness: the conversion command of b.png (at
counter value 1) fails, every other command succeeds; all tools installed. -/
def c8Env : Env :=
  ⟨fun _ => false, [], fun _ => true,
   fun c => decide (c ≠ "convert  b.png easyviz_tmp_0001.png"), fun _ => 0⟩

/-- Conversion-loop context for the C8 witness. -/
def c8Cx : ConvCtx :=
  ⟨c8Env, false, "convert", "pngtopnm", "pnmtopng", Option.none, "easyviz_tmp_", ".png"⟩

/-- Configuration for the C8 wrapper witness. -/
def c8Props : Props := { input_files := .paths ["a.png"], file_type := "png" }

/-- Witness for C8 on concrete data: the failing first file is skipped with
the diagnostic and the batch continues; a succeeding file is numbered with
the current counter; the wrapper returns the loop result normally. -/
theorem C8_any2any_skip_and_numbering_witness :
    (∃ k, k ≤ 2 ∧
       (any2anyLoop c8Cx ["b.png", "c.png"] 1).2 =
         (List.range k).map (fun j => "easyviz_tmp_" ++ fmt0 4 (1 + j) ++ ".png")) ∧
    (any2anyLoop c8Cx ["b.png", "c.png"] 1).2 = (any2anyLoop c8Cx ["c.png"] 1).2 ∧
    ("... convert failed, jumping to next file...") ∈
      (any2anyLoop c8Cx ["b.png", "c.png"] 1).1.printed ∧
    (any2anyLoop c8Cx ["c.png"] 1).2 =
      ("easyviz_tmp_" ++ fmt0 4 1 ++ ".png") :: (any2anyLoop c8Cx [] 2).2 ∧
    any2any c8Env c8Props ["a.png"] "easyviz_tmp_" Option.none ".png" =
      ((any2anyLoop c8Cx ["a.png"] 1).1, .ok (any2anyLoop c8Cx ["a.png"] 1).2) ∧
    (fmtPad 4 1).length = 4 := by
  have hb := C8_any2any_skip_and_numbering.2.1 c8Cx "b.png" ["c.png"] 1 rfl
  refine ⟨C8_any2any_skip_and_numbering.1 c8Cx ["b.png", "c.png"] 1,
    hb.1, hb.2,
    C8_any2any_skip_and_numbering.2.2.1 c8Cx "c.png" [] 1 rfl,
    C8_any2any_skip_and_numbering.2.2.2.1 c8Env c8Props "a.png" [] "easyviz_tmp_"
      Option.none ".png" ("pngtopnm", "pnmtopng") ("pngtopnm", "pnmtopng")
      rfl rfl rfl rfl,
    C8_any2any_skip_and_numbering.2.2.2.2 1 (by decide)⟩

/-! Claim C9: immutability of the configuration under the builders. Refuted:
every builder assigns the per-encoder default output name into the
configuration when output_file is unset. The amended claim: builders leave
every field unchanged except output_file, which is defaulted when unset. -/

/-- Environment for the C9 counterexample. -/
def c9Env : Env := ⟨fun _ => false, [], fun _ => true, fun _ => true, fun _ => 0⟩

/-- Configuration for the C9 counterexample: no output_file set. -/
def c9Props : Props :=
  { input_files := .paths ["f.png"], encoder := some "convert", file_type := "png" }

/-- Counterexample to claim C9: running the convert builder on a validated
configuration with output_file unset mutates the configuration - the
returned property record carries output_file movie.gif (movie.py line
157 assigns into self._prop). -/
theorem C9_counterexample_output_file_mutated :
    c9Props.output_file = Option.none ∧
    ∃ eff out, convertBuild c9Env c9Props = (eff, .ok out) ∧
      out.props.output_file = some "movie.gif" := by
  exact ⟨rfl, _, _, rfl, rfl⟩

/-- Claim C9 amended: each of the six command builders leaves every
configuration field unchanged except output_file, which is set to the
per-encoder default name when unset (movie.gif for convert, movie.avi for
mencoder and ffmpeg, movie.mpeg for mpeg_encode, ppmtompeg and mpeg2enc);
in particular a configuration whose output_file is already set is returned
entirely unchanged. -/
theorem buildErr_absurd {C : Prop} {e0 eff : Eff} {err : PyErr} {out : BuildOut}
    (h : (e0, (Except.error err : Except PyErr BuildOut)) = (eff, Except.ok out)) : C :=
  Except.noConfusion (congrArg Prod.snd h)

theorem buildOk_props {P : Props} {C : String} {T : Option (List String)}
    {e0 eff : Eff} {out : BuildOut}
    (h : (e0, (Except.ok (⟨P, C, T⟩ : BuildOut) : Except PyErr BuildOut)) =
         (eff, Except.ok out)) :
    out.props = P :=
  (congrArg BuildOut.props (Except.ok.inj (congrArg Prod.snd h))).symm

set_option maxHeartbeats 2000000 in
theorem C9_builders_touch_only_output_file :
    (∀ (env : Env) (p : Props) (eff : Eff) (out : BuildOut),
       convertBuild env p = (eff, .ok out) →
       out.props = { p with output_file := some (p.output_file.getD "movie.gif") }) ∧
    (∀ (env : Env) (p : Props) (eff : Eff) (out : BuildOut),
       mencoderBuild env p = (eff, .ok out) →
       out.props = { p with output_file := some (p.output_file.getD "movie.avi") }) ∧
    (∀ (env : Env) (p : Props) (eff : Eff) (out : BuildOut),
       ffmpegBuild env p = (eff, .ok out) →
       out.props = { p with output_file := some (p.output_file.getD "movie.avi") }) ∧
    (∀ (env : Env) (p : Props) (eff : Eff) (out : BuildOut),
       mpegEncodeBuild env p = (eff, .ok out) →
       out.props = { p with output_file := some (p.output_file.getD "movie.mpeg") }) ∧
    (∀ (env : Env) (p : Props) (eff : Eff) (out : BuildOut),
       ppmtompegBuild env p = (eff, .ok out) →
       out.props = { p with output_file := some (p.output_file.getD "movie.mpeg") }) ∧
    (∀ (env : Env) (p : Props) (eff : Eff) (out : BuildOut),
       mpeg2encBuild env p = (eff, .ok out) →
       out.props = { p with output_file := some (p.output_file.getD "movie.mpeg") }) ∧
    (∀ (env : Env) (p : Props) (eff : Eff) (out : BuildOut) (o : String),
       p.output_file = some o →
       convertBuild env p = (eff, .ok out) →
       out.props = p) := by
  have hconv : ∀ (env : Env) (p : Props) (eff : Eff) (out : BuildOut),
      convertBuild env p = (eff, .ok out) →
      out.props = { p with output_file := some (p.output_file.getD "movie.gif") } := by
    intro env p eff out h
    simp only [convertBuild] at h
    repeat' split at h
    all_goals first
      | exact buildErr_absurd h
      | exact buildOk_props h
  refine ⟨hconv, ?_, ?_, ?_, ?_, ?_, ?_⟩
  · intro env p eff out h
    simp only [mencoderBuild] at h
    repeat' split at h
    all_goals first
      | exact buildErr_absurd h
      | exact buildOk_props h
  · intro env p eff out h
    simp only [ffmpegBuild] at h
    repeat' split at h
    all_goals first
      | exact buildErr_absurd h
      | exact buildOk_props h
  · intro env p eff out h
    simp only [mpegEncodeBuild] at h
    repeat' split at h
    all_goals first
      | exact buildErr_absurd h
      | exact buildOk_props h
  · intro env p eff out h
    simp only [ppmtompegBuild, mpegEncodeBuild] at h
    repeat' split at h
    all_goals first
      | exact buildErr_absurd h
      | exact buildOk_props h
  · intro env p eff out h
    simp only [mpeg2encBuild] at h
    repeat' split at h
    all_goals first
      | exact buildErr_absurd h
      | exact buildOk_props h
  · intro env p eff out o ho h
    have h2 := hconv env p eff out h
    have h3 : some (p.output_file.getD "movie.gif") = p.output_file := by
      rw [ho]
      rfl
    rw [h2, h3]

/-- C9 witness configuration for mencoder. -/
def c2wMencoder2 : Props :=
  { input_files := .paths ["f.png"], encoder := some "mencoder", file_type := "png" }

/-- C9 witness configuration for ffmpeg. -/
def c9ffProps : Props :=
  { input_files := .str "f_%04d.png", encoder := some "ffmpeg", file_type := "png" }

/-- C9 witness configuration for mpeg2enc. -/
def c9m2Props : Props :=
  { input_files := .str "f_%04d.png", encoder := some "mpeg2enc", file_type := "png" }

/-- C9 witness configuration with output_file already set. -/
def c9setProps : Props :=
  { input_files := .paths ["f.png"], encoder := some "convert", file_type := "png",
    output_file := some "keep.gif" }

/-- Witness for the amended C9: a successful concrete build with each of
the six builders defaults output_file and leaves the rest unchanged; when
output_file is set, the configuration comes back identical. -/
theorem C9_builders_touch_only_output_file_witness :
    (∃ out, convertBuild c9Env c9Props = (Eff.nil, .ok out) ∧
       out.props = { c9Props with output_file := some "movie.gif" }) ∧
    (∃ out, mencoderBuild c9Env c2wMencoder2 = (Eff.nil, .ok out) ∧
       out.props = { c2wMencoder2 with output_file := some "movie.avi" }) ∧
    (∃ out, ffmpegBuild c9Env c9ffProps = (Eff.nil, .ok out) ∧
       out.props = { c9ffProps with output_file := some "movie.avi" }) ∧
    (∃ eff out, mpegEncodeBuild c6Env c6aProps = (eff, .ok out) ∧
       out.props = { c6aProps with output_file := some "movie.mpeg" }) ∧
    (∃ eff out, ppmtompegBuild c6Env c6aProps = (eff, .ok out) ∧
       out.props = { c6aProps with output_file := some "movie.mpeg" }) ∧
    (∃ out, mpeg2encBuild c2Env c9m2Props = (Eff.nil, .ok out) ∧
       out.props = { c9m2Props with output_file := some "movie.mpeg" }) ∧
    (∃ out, convertBuild c9Env c9setProps = (Eff.nil, .ok out) ∧
       out.props = c9setProps) := by
  refine ⟨⟨_, rfl, ?_⟩, ⟨_, rfl, ?_⟩, ⟨_, rfl, ?_⟩, ⟨_, _, rfl, ?_⟩,
    ⟨_, _, rfl, ?_⟩, ⟨_, rfl, ?_⟩, ⟨_, rfl, ?_⟩⟩
  · exact C9_builders_touch_only_output_file.1 c9Env c9Props _ _ rfl
  · exact C9_builders_touch_only_output_file.2.1 c9Env c2wMencoder2 _ _ rfl
  · exact C9_builders_touch_only_output_file.2.2.1 c9Env c9ffProps _ _ rfl
  · exact C9_builders_touch_only_output_file.2.2.2.1 c6Env c6aProps _ _ rfl
  · exact C9_builders_touch_only_output_file.2.2.2.2.1 c6Env c6aProps _ _ rfl
  · exact C9_builders_touch_only_output_file.2.2.2.2.2.1 c2Env c9m2Props _ _ rfl
  · exact C9_builders_touch_only_output_file.2.2.2.2.2.2 c9Env c9setProps _ _
      "keep.gif" rfl rfl

/-! Claim C7 infrastructure: characters, digits, fuel irrelevance for the
glob machinery, glob matching of the rewritten pattern, and sortedness of
zero-padded names. -/

theorem isDigitCh_dChar (d : Nat) : isDigitCh (dChar d) = true := by
  unfold dChar
  split <;> decide

theorem isDigitCh_ne_percent {c : Char} (h : isDigitCh c = true) : c ≠ '%' := by
  intro he
  subst he
  simp [isDigitCh] at h

theorem decDigits_all_digits : ∀ n : Nat, ∀ c ∈ decDigits n, isDigitCh c = true := by
  intro n
  induction n using Nat.strong_induction_on with
  | _ n ih =>
    intro c hc
    rw [decDigits_eq] at hc
    by_cases h10 : n < 10
    · rw [if_pos h10] at hc
      simp at hc
      rw [hc]
      exact isDigitCh_dChar n
    · rw [if_neg h10] at hc
      rcases List.mem_append.mp hc with h | h
      · exact ih (n / 10) (Nat.div_lt_self (by omega) (by omega)) c h
      · simp at h
        rw [h]
        exact isDigitCh_dChar (n % 10)

theorem dChar_toNat (d : Nat) (hd : d ≤ 9) : (dChar d).toNat = 48 + d := by
  interval_cases d <;> decide

theorem digitsVal_append_single (l : List Char) (c : Char) :
    digitsVal (l ++ [c]) = digitsVal l * 10 + (c.toNat - 48) := by
  simp [digitsVal, List.foldl_append]

theorem digitsVal_decDigits : ∀ n : Nat, digitsVal (decDigits n) = n := by
  intro n
  induction n using Nat.strong_induction_on with
  | _ n ih =>
    rw [decDigits_eq]
    by_cases h10 : n < 10
    · rw [if_pos h10]
      simp [digitsVal, dChar_toNat n (by omega)]
    · rw [if_neg h10, digitsVal_append_single,
        ih (n / 10) (Nat.div_lt_self (by omega) (by omega)),
        dChar_toNat (n % 10) (by omega)]
      omega

theorem digitsVal_zero_cons (l : List Char) : digitsVal ('0' :: l) = digitsVal l := by
  simp [digitsVal]

theorem globToksAux_irrel : ∀ (f1 : Nat) (l : List Char) (f2 : Nat),
    l.length ≤ f1 → l.length ≤ f2 → globToksAux f1 l = globToksAux f2 l := by
  intro f1
  induction f1 with
  | zero =>
    intro l f2 h1 _
    have hl : l = [] := by cases l with
      | nil => rfl
      | cons a b => simp at h1
    subst hl
    cases f2 <;> rfl
  | succ f1 ih =>
    intro l f2 h1 h2
    cases l with
    | nil => cases f2 <;> rfl
    | cons c ps =>
      cases f2 with
      | zero => simp at h2
      | succ f2 =>
        simp only [List.length_cons, Nat.succ_le_succ_iff] at h1 h2
        show globToksAux (f1 + 1) (c :: ps) = globToksAux (f2 + 1) (c :: ps)
        unfold globToksAux
        split
        · rfl
        · rename_i heq
          injection heq with h3 h4
          subst h3; subst h4
          rw [ih ps f2 h1 h2]
        · rename_i heq
          injection heq with h3 h4
          subst h3; subst h4
          rw [ih ps f2 h1 h2]
        · rename_i heq
          injection heq with h3 h4
          subst h3; subst h4
          cases hp : parseClass (if (ps.head? == some '!') = true then ps.tail else ps) with
          | none => simp only [hp]; rw [ih ps f2 h1 h2]
          | some pr =>
            have hlt : pr.2.length < ps.length + 1 := by
              have hb : (if (ps.head? == some '!') = true then ps.tail else ps).length
                  ≤ ps.length := by
                split
                · simp [List.length_tail]
                · exact Nat.le_refl _
              have := parseClass_length_lt _ pr.1 pr.2 (by rw [← hp])
              omega
            simp only [hp]
            rw [ih pr.2 f2 (by omega) (by omega)]
        · rename_i heq
          injection heq with h3 h4
          subst h3; subst h4
          rw [ih ps f2 h1 h2]

theorem tokMatchAux_irrel : ∀ (f1 : Nat) (ts : List GlobTok) (s : List Char) (f2 : Nat),
    ts.length + s.length < f1 → ts.length + s.length < f2 →
    tokMatchAux f1 ts s = tokMatchAux f2 ts s := by
  intro f1
  induction f1 with
  | zero => intro ts s f2 h1 _; omega
  | succ f1 ih =>
    intro ts s f2 h1 h2
    cases f2 with
    | zero => omega
    | succ f2 =>
      show tokMatchAux (f1 + 1) ts s = tokMatchAux (f2 + 1) ts s
      unfold tokMatchAux
      cases ts with
      | nil => cases s <;> rfl
      | cons t ps =>
        cases t with
        | star =>
          cases s with
          | nil =>
            simp only [List.length_cons] at h1 h2
            dsimp only
            exact ih ps [] f2 (by simp; omega) (by simp; omega)
          | cons c s' =>
            simp only [List.length_cons] at h1 h2
            dsimp only
            rw [ih ps (c :: s') f2 (by simp; omega) (by simp; omega),
              ih (.star :: ps) s' f2 (by simp; omega) (by simp; omega)]
        | anyc =>
          cases s with
          | nil => rfl
          | cons c s' =>
            simp only [List.length_cons] at h1 h2
            dsimp only
            rw [ih ps s' f2 (by omega) (by omega)]
        | cls neg items =>
          cases s with
          | nil => rfl
          | cons c s' =>
            simp only [List.length_cons] at h1 h2
            dsimp only
            rw [ih ps s' f2 (by omega) (by omega)]
        | lit a =>
          cases s with
          | nil => rfl
          | cons c s' =>
            simp only [List.length_cons] at h1 h2
            dsimp only
            rw [ih ps s' f2 (by omega) (by omega)]

theorem globToks_cons_lit (c : Char) (q : List Char)
    (h1 : c ≠ '*') (h2 : c ≠ '?') (h3 : c ≠ '[') :
    globToks (c :: q) = .lit c :: globToks q := by
  show globToksAux (q.length + 1) (c :: q) = _
  unfold globToksAux
  split
  · rename_i heq; cases heq
  · rename_i heq
    injection heq with ha _
    exact absurd ha h1
  · rename_i heq
    injection heq with ha _
    exact absurd ha h2
  · rename_i heq
    injection heq with ha _
    exact absurd ha h3
  · rename_i c' ps heq
    injection heq with ha hb
    subst ha; subst hb
    rfl

theorem parseClass_digitRange (q : List Char) :
    parseClass ('0' :: '-' :: '9' :: ']' :: q) = some ([('0', '9')], q) := by
  have hm : ']' ∈ ('0' :: '-' :: '9' :: ']' :: q) := by simp
  have hidx : ('0' :: '-' :: '9' :: ']' :: q).indexOf ']' = 3 := by
    simp [List.indexOf_cons_ne, List.indexOf_cons_self]
  simp [parseClass, hm, hidx, classBody]

theorem globToks_digitClass (q : List Char) :
    globToks ('[' :: '0' :: '-' :: '9' :: ']' :: q) =
      .cls false [('0', '9')] :: globToks q := by
  show globToksAux (q.length + 5) ('[' :: '0' :: '-' :: '9' :: ']' :: q) = _
  unfold globToksAux
  split
  · rename_i heq; cases heq
  · rename_i heq; injection heq with ha _; cases ha
  · rename_i heq; injection heq with ha _; cases ha
  · rename_i ps heq
    injection heq with _ hb
    subst hb
    dsimp only
    rw [show (('0' :: '-' :: '9' :: ']' :: q).head? == some '!') = false from rfl]
    simp only [Bool.false_eq_true, if_false, parseClass_digitRange]
    rw [globToksAux_irrel (q.length + 4) q q.length (by omega) (by omega)]
    rfl
  · rename_i c' ps heq hn1 hn2 hn3
    injection hn3 with ha _
    exact absurd ha.symm hn2

theorem globToks_append_lits : ∀ (p q : List Char),
    (∀ c ∈ p, c ≠ '*' ∧ c ≠ '?' ∧ c ≠ '[') →
    globToks (p ++ q) = p.map .lit ++ globToks q := by
  intro p
  induction p with
  | nil => intro q _; rfl
  | cons c p' ih =>
    intro q hp
    have hc := hp c (by simp)
    rw [List.cons_append, globToks_cons_lit c (p' ++ q) hc.1 hc.2.1 hc.2.2,
      ih q (fun x hx => hp x (by simp [hx]))]
    rfl

/-- The glob text of w copies of the digit class. -/
def digitClassRep (w : Nat) : List Char :=
  (List.replicate w ['[', '0', '-', '9', ']']).join

theorem globToks_digitClassRep : ∀ (w : Nat) (q : List Char),
    globToks (digitClassRep w ++ q) =
      List.replicate w (GlobTok.cls false [('0', '9')]) ++ globToks q := by
  intro w
  induction w with
  | zero => intro q; rfl
  | succ w ih =>
    intro q
    show globToks (('[' :: '0' :: '-' :: '9' :: ']' :: digitClassRep w) ++ q) = _
    rw [List.cons_append, List.cons_append, List.cons_append, List.cons_append,
      List.cons_append, globToks_digitClass (digitClassRep w ++ q), ih q]
    rfl

theorem tokMatch_nil_nil : tokMatch [] [] = true := rfl

theorem tokMatch_lit_cons (a : Char) (ts : List GlobTok) (c : Char) (s : List Char) :
    tokMatch (.lit a :: ts) (c :: s) = ((a == c) && tokMatch ts s) := by
  show tokMatchAux (ts.length + 1 + (s.length + 1) + 1) _ _ = _
  unfold tokMatchAux
  dsimp only
  rw [tokMatchAux_irrel (ts.length + 1 + (s.length + 1)) ts s (ts.length + s.length + 1)
    (by omega) (by omega)]
  rfl

theorem tokMatch_cls_cons (neg : Bool) (items : List (Char × Char)) (ts : List GlobTok)
    (c : Char) (s : List Char) :
    tokMatch (.cls neg items :: ts) (c :: s) =
      ((xor neg (inClass items c)) && tokMatch ts s) := by
  show tokMatchAux (ts.length + 1 + (s.length + 1) + 1) _ _ = _
  unfold tokMatchAux
  dsimp only
  rw [tokMatchAux_irrel (ts.length + 1 + (s.length + 1)) ts s (ts.length + s.length + 1)
    (by omega) (by omega)]
  rfl

theorem tokMatch_lits_append : ∀ (p : List Char) (ts : List GlobTok) (s : List Char),
    tokMatch (p.map .lit ++ ts) (p ++ s) = tokMatch ts s := by
  intro p
  induction p with
  | nil => intro ts s; rfl
  | cons c p' ih =>
    intro ts s
    rw [List.map_cons, List.cons_append, List.cons_append,
      tokMatch_lit_cons c (List.map GlobTok.lit p' ++ ts) c (p' ++ s), ih ts s]
    simp

theorem inClass_digit (c : Char) (hc : isDigitCh c = true) :
    inClass [('0', '9')] c = true := by
  simp only [isDigitCh, Bool.and_eq_true, decide_eq_true_eq] at hc
  simp [inClass, hc.1, hc.2]

theorem tokMatch_digitRun : ∀ (w : Nat) (ds : List Char) (ts : List GlobTok) (s : List Char),
    ds.length = w → (∀ c ∈ ds, isDigitCh c = true) →
    tokMatch (List.replicate w (GlobTok.cls false [('0', '9')]) ++ ts) (ds ++ s) =
      tokMatch ts s := by
  intro w
  induction w with
  | zero =>
    intro ds ts s hlen _
    have : ds = [] := List.eq_nil_of_length_eq_zero hlen
    subst this
    rfl
  | succ w ih =>
    intro ds ts s hlen hd
    cases ds with
    | nil => simp at hlen
    | cons c ds' =>
      simp only [List.length_cons] at hlen
      rw [List.replicate_succ, List.cons_append, List.cons_append,
        tokMatch_cls_cons false [('0', '9')] (List.replicate w _ ++ ts) c (ds' ++ s),
        ih ds' ts s (by omega) (fun x hx => hd x (by simp [hx]))]
      simp [inClass_digit c (hd c (by simp))]

theorem padNum_length : ∀ (w i : Nat), (padNum w i).length = w := by
  intro w
  induction w with
  | zero => intro i; rfl
  | succ w ih => intro i; simp [padNum, ih]

theorem padNum_digits : ∀ (w i : Nat), ∀ c ∈ padNum w i, isDigitCh c = true := by
  intro w
  induction w with
  | zero => intro i c hc; simp [padNum] at hc
  | succ w ih =>
    intro i c hc
    simp only [padNum] at hc
    rcases List.mem_cons.mp hc with h | h
    · rw [h]; exact isDigitCh_dChar _
    · exact ih (i % 10 ^ w) c h

theorem dChar_lt (a b : Nat) (hab : a < b) (hb : b ≤ 9) : dChar a < dChar b := by
  have ha : a ≤ 8 := by omega
  interval_cases a <;> interval_cases b <;> first | decide | omega

theorem lexCmp_padNum_lt : ∀ (w i j : Nat) (s t : List Char), i < j → j < 10 ^ w →
    lexCmp (padNum w i ++ s) (padNum w j ++ t) = .lt := by
  intro w
  induction w with
  | zero => intro i j s t hij hj; simp at hj; omega
  | succ w ih =>
    intro i j s t hij hj
    have hp : 0 < 10 ^ w := Nat.pos_pow_of_pos w (by omega)
    have hjq : j / 10 ^ w ≤ 9 := by
      have : j / 10 ^ w < 10 := by
        rw [Nat.div_lt_iff_lt_mul hp]
        calc j < 10 ^ (w + 1) := hj
        _ = 10 * 10 ^ w := by ring
      omega
    have hdivle : i / 10 ^ w ≤ j / 10 ^ w := Nat.div_le_div_right (by omega)
    simp only [padNum, List.cons_append]
    rcases Nat.lt_or_ge (i / 10 ^ w) (j / 10 ^ w) with hlt | hge
    · simp [lexCmp, dChar_lt _ _ hlt hjq]
    · have heq : i / 10 ^ w = j / 10 ^ w := by omega
      rw [heq, lexCmp_cons_same]
      have hmod : i % 10 ^ w < j % 10 ^ w := by
        have hi := Nat.div_add_mod i (10 ^ w)
        have hjd := Nat.div_add_mod j (10 ^ w)
        rw [heq] at hi
        omega
      exact ih (i % 10 ^ w) (j % 10 ^ w) s t hmod (Nat.mod_lt j hp)

/-- Every target file name matches the rewritten digit-class glob. -/
theorem globMatch_target (pre suf : List Char) (w i : Nat)
    (hpre : ∀ c ∈ pre, c ≠ '*' ∧ c ≠ '?' ∧ c ≠ '[')
    (hsuf : ∀ c ∈ suf, c ≠ '*' ∧ c ≠ '?' ∧ c ≠ '[') :
    globMatch (pre ++ (digitClassRep w ++ suf)) (pre ++ (padNum w i ++ suf)) = true := by
  unfold globMatch
  rw [globToks_append_lits pre (digitClassRep w ++ suf) hpre,
    globToks_digitClassRep w suf,
    show globToks suf = List.map GlobTok.lit suf ++ globToks [] from by
      rw [← globToks_append_lits suf [] hsuf, List.append_nil],
    tokMatch_lits_append pre _ _,
    tokMatch_digitRun w (padNum w i) _ _ (padNum_length w i) (padNum_digits w i)]
  rw [show globToks ([] : List Char) = [] from rfl]
  simpa using tokMatch_lits_append suf ([] : List GlobTok) ([] : List Char)

theorem seqTail_not_percent {c : Char} (h : c ≠ '%') (rest : List Char) :
    seqTail (c :: rest) = Option.none := by
  unfold seqTail
  split
  · rename_i heq
    injection heq with ha _
    exact absurd ha h
  · rfl

theorem takeWhile_all_append (p : Char → Bool) :
    ∀ (l : List Char) (x : Char) (r : List Char),
      (∀ c ∈ l, p c = true) → p x = false →
      (l ++ x :: r).takeWhile p = l := by
  intro l
  induction l with
  | nil => intro x r _ hx; simp [List.takeWhile_cons, hx]
  | cons a l' ih =>
    intro x r hl hx
    rw [List.cons_append, List.takeWhile_cons, hl a (by simp)]
    rw [ih x r (fun c hc => hl c (by simp [hc])) hx]
    simp

theorem seqTail_match (ds suf : List Char) (hne : ds ≠ [])
    (hd : ∀ c ∈ ds, isDigitCh c = true) (hdot : '.' ∈ suf) :
    seqTail ('%' :: (ds ++ 'd' :: suf)) = some (digitsVal ds, suf) := by
  unfold seqTail
  split
  · rename_i rest heq
    injection heq with _ hrest
    subst hrest
    rw [takeWhile_all_append isDigitCh ds 'd' suf hd (by decide)]
    rw [if_neg (by simpa [List.isEmpty_iff] using hne)]
    rw [List.drop_left]
    split
    · rename_i ext heq
      injection heq with _ hext
      subst hext
      rw [if_pos (by simpa using List.elem_eq_true_of_mem hdot)]
    · rename_i hno
      exact absurd rfl (hno suf)
  · rename_i hno
    exact absurd rfl (hno (ds ++ 'd' :: suf))

theorem seqScan_skip : ∀ (p rest pre : List Char)
    (acc : Option (List Char × Nat × List Char)),
    (∀ c ∈ p, c ≠ '%') →
    seqScan pre (p ++ rest) acc = seqScan (pre ++ p) rest acc := by
  intro p
  induction p with
  | nil => intro rest pre acc _; simp
  | cons c p' ih =>
    intro rest pre acc hp
    rw [List.cons_append]
    show seqScan pre (c :: (p' ++ rest)) acc = _
    rw [seqScan, seqTail_not_percent (hp c (by simp)) (p' ++ rest)]
    rw [ih rest (pre ++ [c]) acc (fun x hx => hp x (by simp [hx]))]
    simp

theorem seqScan_no_match : ∀ (rest pre : List Char)
    (acc : Option (List Char × Nat × List Char)),
    (∀ c ∈ rest, c ≠ '%') →
    seqScan pre rest acc = acc := by
  intro rest
  induction rest with
  | nil => intro pre acc _; rfl
  | cons c rs ih =>
    intro pre acc hr
    rw [seqScan, seqTail_not_percent (hr c (by simp)) rs]
    exact ih (pre ++ [c]) acc (fun x hx => hr x (by simp [hx]))

theorem parseSeqPattern_split (pre ds suf : List Char)
    (hpre : ∀ c ∈ pre, c ≠ '%') (hne : ds ≠ [])
    (hd : ∀ c ∈ ds, isDigitCh c = true) (hdot : '.' ∈ suf)
    (hsuf : ∀ c ∈ suf, c ≠ '%') :
    parseSeqPattern (pre ++ '%' :: (ds ++ 'd' :: suf)) =
      some (pre, digitsVal ds, suf) := by
  unfold parseSeqPattern
  rw [seqScan_skip pre ('%' :: (ds ++ 'd' :: suf)) [] Option.none hpre]
  rw [List.nil_append]
  show seqScan pre ('%' :: (ds ++ 'd' :: suf)) Option.none = _
  rw [seqScan, seqTail_match ds suf hne hd hdot]
  rw [seqScan_no_match (ds ++ 'd' :: suf) (pre ++ ['%'])
    (some (pre, digitsVal ds, suf))]
  intro c hc
  rcases List.mem_append.mp hc with h | h
  · exact isDigitCh_ne_percent (hd c h)
  · rcases List.mem_cons.mp h with h2 | h2
    · rw [h2]; decide
    · exact hsuf c h2

/-- The list of target names is sorted in the string order. -/
theorem targets_sorted (pre suf : List Char) (w n : Nat) (hn : n ≤ 10 ^ w) :
    List.Sorted (fun a b => strLe a b = true)
      ((List.range n).map (fun i => String.mk (pre ++ (padNum w i ++ suf)))) := by
  rw [List.Sorted, List.pairwise_map]
  refine (List.pairwise_lt_range n).imp_of_mem ?_
  intro i j hi hj hij
  have hjn : j < n := List.mem_range.mp hj
  show strLe (String.mk (pre ++ (padNum w i ++ suf))) (String.mk (pre ++ (padNum w j ++ suf))) = true
  show lexLe (pre ++ (padNum w i ++ suf)) (pre ++ (padNum w j ++ suf)) = true
  unfold lexLe
  rw [lexCmp_append_left, lexCmp_padNum_lt w i j suf suf hij (by omega)]

/-- Claim C7: for every valid prefix, width and suffix (the suffix
containing a dot, neither containing a percent sign or glob metacharacter),
resolving the pattern prefix ++ %0<width>d ++ suffix against a directory
containing exactly the files prefix ++ zero-padded width-digit index ++
suffix for indices 0..n-1 (in any order) rewrites the placeholder to width
copies of the digit class, glob-expands, sorts, and yields exactly those n
files in ascending numeric order; and a string specification matching zero
files makes the convert builder fail with the invalid-file-specification
error rather than succeed emptily. -/
theorem C7_sequential_pattern_resolution :
    (∀ (env : Env) (pre suf : List Char) (w n : Nat),
       (∀ c ∈ pre, c ≠ '%' ∧ c ≠ '*' ∧ c ≠ '?' ∧ c ≠ '[') →
       (∀ c ∈ suf, c ≠ '%' ∧ c ≠ '*' ∧ c ≠ '?' ∧ c ≠ '[') →
       '.' ∈ suf → n ≤ 10 ^ w →
       env.listdir.Perm
         ((List.range n).map (fun i => String.mk (pre ++ (padNum w i ++ suf)))) →
       resolveStrInput env
           (String.mk (pre ++ '%' :: (('0' :: decDigits w) ++ 'd' :: suf))) =
         (List.range n).map (fun i => String.mk (pre ++ (padNum w i ++ suf)))) ∧
    (∀ (env : Env) (p : Props) (s : String),
       p.input_files = .str s → resolveStrInput env s = [] →
       (convertBuild env p).2 = .error (.valueError (badSpecMsg "[]"))) := by
  constructor
  · intro env pre suf w n hpre hsuf hdot hn hperm
    have hds : ∀ c ∈ ('0' :: decDigits w), isDigitCh c = true := by
      intro c hc
      rcases List.mem_cons.mp hc with h | h
      · rw [h]; decide
      · exact decDigits_all_digits w c h
    have hval : digitsVal ('0' :: decDigits w) = w := by
      rw [digitsVal_zero_cons, digitsVal_decDigits]
    unfold resolveStrInput rewriteSeq
    rw [show (String.mk (pre ++ '%' :: (('0' :: decDigits w) ++ 'd' :: suf))).data =
        pre ++ '%' :: (('0' :: decDigits w) ++ 'd' :: suf) from rfl]
    rw [parseSeqPattern_split pre ('0' :: decDigits w) suf
      (fun c hc => (hpre c hc).1) (by simp) hds hdot (fun c hc => (hsuf c hc).1)]
    dsimp only
    rw [hval]
    have hfilter : globList env.listdir
        (String.mk (pre ++ (List.replicate w ['[', '0', '-', '9', ']']).join ++ suf)) =
        env.listdir := by
      apply List.filter_eq_self.mpr
      intro x hx
      have hxt := (hperm.mem_iff).mp hx
      rcases List.mem_map.mp hxt with ⟨i, _, hxi⟩
      subst hxi
      show globMatch (pre ++ (List.replicate w ['[', '0', '-', '9', ']']).join ++ suf)
        (pre ++ (padNum w i ++ suf)) = true
      rw [show pre ++ (List.replicate w ['[', '0', '-', '9', ']']).join ++ suf =
          pre ++ (digitClassRep w ++ suf) from by
        rw [List.append_assoc]; rfl]
      exact globMatch_target pre suf w i
        (fun c hc => ⟨(hpre c hc).2.1, (hpre c hc).2.2.1, (hpre c hc).2.2.2⟩)
        (fun c hc => ⟨(hsuf c hc).2.1, (hsuf c hc).2.2.1, (hsuf c hc).2.2.2⟩)
    rw [hfilter]
    exact List.eq_of_perm_of_sorted ((pySort_perm env.listdir).trans hperm)
      (pySort_sorted env.listdir) (targets_sorted pre suf w n hn)
  · intro env p s hin hres
    simp only [convertBuild, hin, hres]
    simp

/-- Environment for the C7 witness: a directory with the frame files in
scrambled order. -/
def c7Env : Env :=
  ⟨fun _ => false, ["f_02.png", "f_00.png", "f_01.png"], fun _ => false,
   fun _ => false, fun _ => 0⟩

/-- Configuration for the C7 zero-match witness. -/
def c7Props : Props :=
  { input_files := .str "nomatch_%03d.png", encoder := some "convert", file_type := "png" }

/-- Witness for C7: the pattern f_%02d.png over the scrambled directory
resolves to the three frames in ascending numeric order, and a pattern
matching nothing makes the convert builder fail. -/
theorem C7_sequential_pattern_resolution_witness :
    String.mk ("f_".data ++ '%' :: (('0' :: decDigits 2) ++ 'd' :: ".png".data)) =
      "f_%02d.png" ∧
    resolveStrInput c7Env
        (String.mk ("f_".data ++ '%' :: (('0' :: decDigits 2) ++ 'd' :: ".png".data))) =
      ["f_00.png", "f_01.png", "f_02.png"] ∧
    (convertBuild c7Env c7Props).2 = .error (.valueError (badSpecMsg "[]")) := by
  refine ⟨rfl, ?_, ?_⟩
  · have h := C7_sequential_pattern_resolution.1 c7Env "f_".data ".png".data 2 3
      (by decide) (by decide) (by decide) (by decide) (by decide)
    exact h.trans (by decide)
  · exact C7_sequential_pattern_resolution.2 c7Env c7Props "nomatch_%03d.png" rfl (by decide)

end Movie
